import Mathlib

/-!
# A shallow embedding of ServerKit's FileBufferedChannel

This file models `src/ext/common/ServerKit/FileBufferedChannel.h` (Phusion
Passenger's file-backed unbounded buffering channel) and proves properties of
the model.

Embedding conventions:

* A byte buffer (`MemoryKit::mbuf`) is a `List Nat`; the empty list is both the
  null mbuf and the end-of-stream (EOS) sentinel, exactly as `mbuf::empty()`
  conflates the two in the source.
* The underlying single-slot `Channel` (from `ServerKit/Channel.h`, which is
  not part of this repository's sources) is modelled from the spec as a small
  record `LowerChannel`; what it observes (buffers fed, EOF fed, errors fed) is
  recorded in it.  The downstream consumer's reaction to each fed buffer is an
  environment choice (`ConsumerResp`).
* Asynchronous eio operations are modelled by storing the in-flight request in
  the state (`ReadReq` / `WriterReq`, holding the arguments captured at issue
  time) and by a completion event that applies the completion handler.
  Cancellation clears the stored request; a completion event whose request is
  no longer stored is a no-op, which models the `isCanceled()` check of the
  completion callbacks.  The physical effect of an `eio_write` on the buffer
  file is applied when its completion is processed.
* The three user callbacks (`dataCallback` via the lower channel,
  `buffersFlushedCallback`, `dataFlushedCallback`) are modelled as external
  notifications that do not re-enter the channel.  Consequently the
  `generation != this->generation || mode >= ERROR` re-checks after a
  synchronous callback can never fire and are elided from the model.
* `P_ASSERT`/`assert` statements are not modelled as guards (release builds
  skip them): the code after them is modelled unconditionally, except where the
  C++ would dereference a null pointer, in which case the model pattern-matches
  on the corresponding `Option` and leaves the state unchanged in the
  impossible branch.
* The `goto begin` loop of `readNextWithoutRefGuard` is modelled by structural
  recursion on a fuel argument; callers pass `nbuffers + 2`, which is shown to
  be sufficient on the executions the theorems quantify over.
* The `boost::int32_t` locals `target` and `offset` of
  `findBufferForReadProcessing` are modelled as exact integers.  In every
  reachable state both quantities lie in `[0, 2^32)` (they are bounded by
  `bytesBuffered ≤ MAX_MEMORY_BUFFERING = 2^32 - 1`), where 32-bit equality
  agrees with exact equality.
-/

set_option maxHeartbeats 1000000

namespace FBC

/-- A byte buffer (`MemoryKit::mbuf`): a list of byte values.  The empty
buffer is the end-of-stream sentinel (`mbuf::empty()`). -/
abbrev Buf := List Nat

/-- Sum of the sizes of a list of buffers. -/
def sumB (l : List Buf) : Nat := (l.map List.length).sum

/-- `FileBufferedChannel::Mode`. -/
inductive Mode
  | IN_MEMORY_MODE
  | IN_FILE_MODE
  | ERROR
  | ERROR_WAITING
deriving DecidableEq

/-- The C++ comparison `mode >= ERROR` on the `Mode` enum. -/
def Mode.geError : Mode → Bool
  | .ERROR => true
  | .ERROR_WAITING => true
  | _ => false

/-- `FileBufferedChannel::ReaderState`. -/
inductive ReaderState
  | RS_INACTIVE
  | RS_FEEDING
  | RS_FEEDING_EOF
  | RS_WAITING_FOR_CHANNEL_IDLE
  | RS_READING_FROM_FILE
  | RS_TERMINATED
deriving DecidableEq

/-- `FileBufferedChannel::WriterState`. -/
inductive WriterState
  | WS_INACTIVE
  | WS_CREATING_FILE
  | WS_MOVING
  | WS_TERMINATED
deriving DecidableEq

/-- Modelled from the spec: the state enum of the underlying single-slot
`Channel` (`ServerKit/Channel.h` is not among this repository's sources;
the spec lists these states for the underlying channel contract). -/
inductive ChState
  | IDLE
  | CALLING
  | CALLING_WITH_EOF_ACK
  | STOPPED
  | EOF_REACHED
  | EOF_ACKED
  | ERROR_ACKED
deriving DecidableEq

/-- How the downstream consumer reacts to a non-EOS buffer fed to the
underlying channel: consume it synchronously (`accept`, the channel is IDLE
again when `feed` returns), consume it later (`defer`, the channel stays
CALLING and `mayAcceptInputLater()` holds), or refuse all further input
(`stop`, the channel ends). -/
inductive ConsumerResp
  | accept
  | defer
  | stop
deriving DecidableEq

/-- Modelled from the spec: the observable face of the underlying `Channel`.
`fed` records the data buffers handed to the data callback (oldest first),
`eofFed` whether an empty (EOF) buffer was fed, `errorsFed` the error codes
fed via `Channel::feedError`. -/
structure LowerChannel where
  state : ChState
  fed : List Buf
  eofFed : Bool
  errorsFed : List Int
deriving DecidableEq

/-- Modelled from the spec: `Channel::acceptingInput()` — the channel is idle
and willing to accept another `feed`. -/
def LowerChannel.acceptingInput (c : LowerChannel) : Bool :=
  match c.state with
  | .IDLE => true
  | _ => false

/-- Modelled from the spec: `Channel::mayAcceptInputLater()` — the channel is
temporarily full (a callback is outstanding or the channel is stopped) but
will accept input later. -/
def LowerChannel.mayAcceptInputLater (c : LowerChannel) : Bool :=
  match c.state with
  | .CALLING => true
  | .CALLING_WITH_EOF_ACK => true
  | .STOPPED => true
  | _ => false

/-- Modelled from the spec: `Channel::ended()`. -/
def LowerChannel.chEnded (c : LowerChannel) : Bool :=
  match c.state with
  | .EOF_REACHED => true
  | .EOF_ACKED => true
  | .ERROR_ACKED => true
  | _ => false

/-- Modelled from the spec: `Channel::isIdle()`. -/
def LowerChannel.isIdle (c : LowerChannel) : Bool :=
  match c.state with
  | .IDLE => true
  | _ => false

/-- Modelled from the spec: `Channel::feedWithoutRefGuard(buffer)` under a
consumer that reacts according to `resp`.  An empty buffer signals EOF and
ends the channel. -/
def chanFeed (c : LowerChannel) (buffer : Buf) (resp : ConsumerResp) : LowerChannel :=
  if buffer = [] then
    { c with eofFed := true, state := ChState.EOF_REACHED }
  else
    { c with
      fed := c.fed ++ [buffer],
      state := match resp with
               | .accept => ChState.IDLE
               | .defer => ChState.CALLING
               | .stop => ChState.EOF_REACHED }

/-- Modelled from the spec: `Channel::feedError(errcode)`; the consumer
acknowledges the error. -/
def chanFeedError (c : LowerChannel) (e : Int) : LowerChannel :=
  { c with errorsFed := c.errorsFed ++ [e], state := ChState.ERROR_ACKED }

/-- The reader's outstanding `eio_read` (`ReadContext`): the requested size and
the file offset passed to `eio_read` at issue time. -/
structure ReadReq where
  size : Nat
  offset : Int
deriving DecidableEq

/-- The writer's outstanding request (the `IOContext` held in
`writerRequest`): either the `eio_open` of the buffer file
(`FileCreationContext`; the optional `eio_busy` delay is collapsed into it) or
an in-flight `eio_write` (`MoveContext`) holding the buffer being moved, the
progress counter `MoveContext::written`, and the file offset passed to
`eio_write` at issue time. -/
inductive WriterReq
  | creating
  | moving (buffer : Buf) (ctxWritten : Nat) (offset : Int)
deriving DecidableEq

/-- `FileBufferedChannel::InFileMode`, extended with the contents of the
(already unlinked) buffer file so that reads and writes have a place to act
on. -/
structure InFileMode where
  fd : Int
  readRequest : Option ReadReq
  writerState : WriterState
  writerRequest : Option WriterReq
  readOffset : Int
  written : Int
  file : List Nat
deriving DecidableEq

/-- `FileBufferedChannelConfig` (the fields this file's code reads), plus the
mbuf pool's slot size `mbuf_pool_data_size(&ctx->mbuf_pool)`. -/
structure Cfg where
  threshold : Nat
  delayInFileModeSwitching : Nat
  autoTruncateFile : Bool
  autoStartMover : Bool
  mbufSize : Nat
deriving DecidableEq

/-- The state of a `FileBufferedChannel`: its own fields, the underlying
channel, and the generation counter inherited from `Channel`. -/
structure St where
  mode : Mode
  readerState : ReaderState
  nbuffers : Nat
  errcode : Int
  bytesBuffered : Nat
  firstBuffer : Buf
  moreBuffers : List Buf
  inFileMode : Option InFileMode
  lower : LowerChannel
  generation : Nat
deriving DecidableEq

/-- Apply `f` to the `InFileMode` record if it exists. -/
def withIFM (s : St) (f : InFileMode → InFileMode) : St :=
  match s.inFileMode with
  | none => s
  | some i => { s with inFileMode := some (f i) }

/-- `clearBuffers()`. -/
def clearBuffers (s : St) : St :=
  { s with nbuffers := 0, bytesBuffered := 0, firstBuffer := [], moreBuffers := [] }

/-- `pushBuffer(buffer)`.  The `assert`s on `MAX_MEMORY_BUFFERING` and
`MAX_BUFFERS` are not modelled (see the header comment). -/
def pushBuffer (s : St) (buffer : Buf) : St :=
  if s.nbuffers = 0 then
    { s with firstBuffer := buffer, nbuffers := s.nbuffers + 1,
             bytesBuffered := s.bytesBuffered + buffer.length }
  else
    { s with moreBuffers := s.moreBuffers ++ [buffer], nbuffers := s.nbuffers + 1,
             bytesBuffered := s.bytesBuffered + buffer.length }

/-- `popBuffer()`.  The `buffersFlushedCallback` notification when the queue
drains is external and does not re-enter the channel. -/
def popBuffer (s : St) : St :=
  let s1 := { s with bytesBuffered := s.bytesBuffered - s.firstBuffer.length,
                     nbuffers := s.nbuffers - 1 }
  match s1.moreBuffers with
  | [] => { s1 with firstBuffer := [] }
  | b :: rest => { s1 with firstBuffer := b, moreBuffers := rest }

/-- `hasBuffers()`. -/
def hasBuffers (s : St) : Bool := decide (0 < s.nbuffers)

/-- `peekBuffer()`. -/
def peekBuffer (s : St) : Buf := s.firstBuffer

/-- `peekLastBuffer()`. -/
def peekLastBuffer (s : St) : Buf :=
  if s.nbuffers ≤ 1 then s.firstBuffer else s.moreBuffers.getLastD []

/-- `passedThreshold()`. -/
def passedThreshold (cfg : Cfg) (s : St) : Bool :=
  decide (cfg.threshold ≤ s.bytesBuffered)

/-- `ended()`. -/
def ended (s : St) : Bool :=
  (hasBuffers s && decide (peekLastBuffer s = [])) || s.mode.geError || s.lower.chEnded

/-- The inner scan loop of `findBufferForReadProcessing()`, over
`moreBuffers`. -/
def fbrpLoop (target : Int) : Int → List Buf → Option Buf
  | _, [] => none
  | offset, b :: rest =>
    if offset = target ∨ b = [] then some b
    else fbrpLoop target (offset + b.length) rest

/-- `findBufferForReadProcessing()`.  `written` is `inFileMode->written`; the
pair `(mbuf, found)` of the source becomes an `Option Buf`. -/
def findBufferForReadProcessing (s : St) (written : Int) : Option Buf :=
  if s.nbuffers = 0 then none
  else
    let target : Int := -written
    if (0 : Int) = target then some s.firstBuffer
    else fbrpLoop target (s.firstBuffer.length : Int) s.moreBuffers

/-- `cancelReader()`: only meaningful in `RS_READING_FROM_FILE`, where it
cancels and drops the read request. -/
def cancelReader (s : St) : St :=
  match s.readerState with
  | .RS_READING_FROM_FILE => withIFM s (fun i => { i with readRequest := none })
  | _ => s

/-- `cancelWriter()`: cancels and drops the writer request; the writer state
becomes `WS_INACTIVE` except from `WS_TERMINATED`, which is kept. -/
def cancelWriter (s : St) : St :=
  withIFM s (fun i =>
    match i.writerState with
    | .WS_INACTIVE => { i with writerState := .WS_INACTIVE }
    | .WS_CREATING_FILE => { i with writerRequest := none, writerState := .WS_INACTIVE }
    | .WS_MOVING => { i with writerRequest := none, writerState := .WS_INACTIVE }
    | .WS_TERMINATED => i)

/-- `setError(errcode)`. -/
def setError (e : Int) (s : St) : St :=
  if s.mode.geError then s
  else
    let s1 := cancelReader s
    let s2 := if s1.mode = Mode.IN_FILE_MODE then cancelWriter s1 else s1
    let s3 := { s2 with readerState := ReaderState.RS_TERMINATED, errcode := e,
                        inFileMode := none }
    if s3.lower.acceptingInput = true then
      { s3 with mode := Mode.ERROR, lower := chanFeedError s3.lower e }
    else
      { s3 with mode := Mode.ERROR_WAITING }

/-- `feedErrorWhenChannelIdleOrEnded()`. -/
def feedErrorWhenChannelIdleOrEnded (s : St) : St :=
  if s.lower.isIdle = true then { s with lower := chanFeedError s.lower s.errcode }
  else s

/-- `switchToInMemoryMode()`: cancel the writer, drop all buffers, go back to
the in-memory mode and drop the `InFileMode` record ("truncation" by
recreation). -/
def switchToInMemoryMode (s : St) : St :=
  let s1 := cancelWriter s
  let s2 := clearBuffers s1
  { s2 with mode := Mode.IN_MEMORY_MODE, inFileMode := none }

/-- `createBufferFile()`: issues the `eio_open` (or the `eio_busy` delay that
precedes it, collapsed here into the same outstanding request). -/
def createBufferFile (s : St) : St :=
  withIFM s (fun i =>
    { i with writerState := .WS_CREATING_FILE, writerRequest := some .creating })

/-- `switchToInFileMode()`. -/
def switchToInFileMode (s : St) : St :=
  let s1 := { s with mode := Mode.IN_FILE_MODE,
                     inFileMode := some { fd := -1, readRequest := none,
                                          writerState := .WS_INACTIVE,
                                          writerRequest := none,
                                          readOffset := 0, written := 0, file := [] } }
  createBufferFile s1

/-- `moveNextBufferToFile()`. -/
def moveNextBufferToFile (s : St) : St :=
  match s.inFileMode with
  | none => s
  | some i =>
    if s.nbuffers = 0 then
      { s with inFileMode := some { i with writerState := .WS_INACTIVE } }
    else if s.firstBuffer = [] then
      { s with inFileMode := some { i with writerState := .WS_TERMINATED } }
    else
      { s with inFileMode := some { i with
          writerState := .WS_MOVING,
          writerRequest := some (.moving s.firstBuffer 0 (i.readOffset + i.written)) } }

/-- `readNextChunkFromFile()`: issue an `eio_read` of
`min(written, mbuf_pool_data_size)` bytes at `readOffset`. -/
def readNextChunkFromFile (cfg : Cfg) (s : St) : St :=
  match s.inFileMode with
  | none => s
  | some i =>
    { s with readerState := ReaderState.RS_READING_FROM_FILE,
             inFileMode := some { i with
               readRequest := some { size := min i.written.toNat cfg.mbufSize,
                                     offset := i.readOffset } } }

/-- `terminateReaderBecauseOfEOF()`; the `dataFlushedCallback` notification is
external. -/
def terminateReaderBecauseOfEOF (s : St) : St :=
  { s with readerState := ReaderState.RS_TERMINATED }

/-- `readNextWhenChannelIdle()`. -/
def readNextWhenChannelIdle (s : St) : St :=
  { s with readerState := ReaderState.RS_WAITING_FOR_CHANNEL_IDLE }

/-- First consumer response of the oracle list (an exhausted oracle keeps
accepting). -/
def headResp : List ConsumerResp → ConsumerResp
  | [] => .accept
  | r :: _ => r

/-- Rest of the consumer-response oracle. -/
def tailResps : List ConsumerResp → List ConsumerResp
  | [] => []
  | _ :: rs => rs

/-- The reader's no-more-buffers epilogue of the in-file mode (the
`!result.second` arm of `readNextWithoutRefGuard`): transition back to the
in-memory mode ("truncating" the file) exactly when `autoTruncateFile` is
enabled. -/
def autoTruncAfter (cfg : Cfg) (s : St) : St :=
  if cfg.autoTruncateFile = true then switchToInMemoryMode s else s

/-- `readNextWithoutRefGuard()`.  The `goto begin` loop is structural
recursion on `fuel`; `resps` is the oracle of downstream consumer reactions,
one per buffer fed.  The `ERROR`/`ERROR_WAITING` arms are the `P_BUG`
("should never be reached") arm of the source. -/
def readNextFuel (cfg : Cfg) : Nat → List ConsumerResp → St → St
  | 0, _, s => s
  | fuel + 1, resps, s =>
    match s.mode with
    | .IN_MEMORY_MODE =>
      if s.nbuffers = 0 then
        { s with readerState := ReaderState.RS_INACTIVE }
      else if s.firstBuffer = [] then
        let s1 := { s with readerState := ReaderState.RS_FEEDING_EOF }
        let s2 := { s1 with lower := chanFeed s1.lower [] (headResp resps) }
        terminateReaderBecauseOfEOF s2
      else
        let buffer := s.firstBuffer
        let s1 := popBuffer s
        let s2 := { s1 with readerState := ReaderState.RS_FEEDING }
        let s3 := { s2 with lower := chanFeed s2.lower buffer (headResp resps) }
        if s3.lower.acceptingInput = true then
          readNextFuel cfg fuel (tailResps resps) s3
        else if s3.lower.mayAcceptInputLater = true then
          readNextWhenChannelIdle s3
        else
          terminateReaderBecauseOfEOF s3
    | .IN_FILE_MODE =>
      match s.inFileMode with
      | none => s
      | some i =>
        if 0 < i.written then
          readNextChunkFromFile cfg s
        else
          match findBufferForReadProcessing s i.written with
          | none =>
            autoTruncAfter cfg { s with readerState := ReaderState.RS_INACTIVE }
          | some b =>
            if b = [] then
              let s1 := { s with readerState := ReaderState.RS_FEEDING_EOF }
              let s2 := { s1 with lower := chanFeed s1.lower [] (headResp resps) }
              terminateReaderBecauseOfEOF s2
            else
              let s1 := { s with inFileMode := some { i with
                            readOffset := i.readOffset + b.length,
                            written := i.written - b.length } }
              let s2 := { s1 with readerState := ReaderState.RS_FEEDING }
              let s3 := { s2 with lower := chanFeed s2.lower b (headResp resps) }
              if s3.lower.acceptingInput = true then
                readNextFuel cfg fuel (tailResps resps) s3
              else if s3.lower.mayAcceptInputLater = true then
                readNextWhenChannelIdle s3
              else
                terminateReaderBecauseOfEOF s3
    | .ERROR => s
    | .ERROR_WAITING => s

/-- Overwrite `data` into `file` starting at byte offset `off`, zero-padding
any gap (the file-system semantics of a positional write). -/
def writeAt (file : List Nat) (off : Nat) (data : List Nat) : List Nat :=
  file.take off ++ List.replicate (off - file.length) 0 ++ data ++
    file.drop (off + data.length)

/-- Read up to `n` bytes of `file` at offset `off`. -/
def readAt (file : List Nat) (off : Nat) (n : Nat) : List Nat :=
  (file.drop off).take n

/-- `bufferWrittenToFile()` for the in-flight `MoveContext` with buffer `b`,
progress counter `w` and issue-time offset `off`; `result` is the eio result
(`-1` failure, otherwise bytes written) and `err` the eio errno.  The physical
write of the completed portion lands in the file here. -/
def bufferWrittenToFile (result : Int) (err : Int) (b : Buf) (w : Nat) (off : Int)
    (s : St) : St :=
  match s.inFileMode with
  | none => s
  | some i =>
    if 0 ≤ result then
      let i1 := { i with file := writeAt i.file off.toNat ((b.drop w).take result.toNat) }
      let w2 := w + result.toNat
      if w2 = b.length then
        let i2 := { i1 with written := i1.written + (b.length : Int),
                            writerRequest := none }
        let s1 := popBuffer { s with inFileMode := some i2 }
        moveNextBufferToFile s1
      else
        { s with inFileMode := some { i1 with
            writerRequest := some (.moving b w2 (i1.readOffset + i1.written)) } }
    else
      let s1 := { s with inFileMode := some { i with
                    writerRequest := none, writerState := .WS_TERMINATED } }
      setError err s1

/-- `EEXIST`. -/
def EEXIST : Int := 17

/-- `bufferFileCreated()`: on success record the fd and start moving; on
`EEXIST` retry creation with a fresh name; otherwise `setError`. -/
def bufferFileCreated (result : Int) (err : Int) (s : St) : St :=
  match s.inFileMode with
  | none => s
  | some i =>
    if 0 ≤ result then
      moveNextBufferToFile
        { s with inFileMode := some { i with writerRequest := none, fd := result } }
    else
      let s1 := { s with inFileMode := some { i with writerRequest := none } }
      if err = EEXIST then
        createBufferFile (withIFM s1 (fun j => { j with writerState := .WS_INACTIVE }))
      else
        setError err s1

/-- `nextChunkDoneReading()` for the outstanding read request `req`. -/
def nextChunkDoneReading (cfg : Cfg) (result : Int) (err : Int)
    (resps : List ConsumerResp) (s : St) : St :=
  match s.inFileMode with
  | none => s
  | some i =>
    match i.readRequest with
    | none => s
    | some req =>
      if 0 ≤ result then
        let buffer := readAt i.file req.offset.toNat result.toNat
        let i1 := { i with readRequest := none,
                           readOffset := i.readOffset + buffer.length,
                           written := i.written - buffer.length }
        let s1 := { s with inFileMode := some i1,
                           readerState := ReaderState.RS_FEEDING,
                           lower := chanFeed s.lower buffer (headResp resps) }
        if s1.lower.acceptingInput = true then
          readNextFuel cfg (s1.nbuffers + 2) (tailResps resps)
            { s1 with readerState := ReaderState.RS_INACTIVE }
        else if s1.lower.mayAcceptInputLater = true then
          readNextWhenChannelIdle s1
        else
          terminateReaderBecauseOfEOF s1
      else
        setError err { s with inFileMode := some { i with readRequest := none } }

/-- `onChannelConsumed()`: the "consumed" subscription installed on the
underlying channel. -/
def onChannelConsumed (cfg : Cfg) (resps : List ConsumerResp) (s : St) : St :=
  if s.readerState = ReaderState.RS_WAITING_FOR_CHANNEL_IDLE then
    if s.lower.acceptingInput = true then
      readNextFuel cfg (s.nbuffers + 2) resps s
    else
      terminateReaderBecauseOfEOF s
  else if s.mode = Mode.ERROR_WAITING then
    feedErrorWhenChannelIdleOrEnded s
  else s

/-- `feedWithoutRefGuard(buffer)` (and hence `feed(buffer)`, whose
`RefGuard` has no effect with non-reentrant callbacks). -/
def feedWithoutRefGuard (cfg : Cfg) (buffer : Buf) (resps : List ConsumerResp)
    (s : St) : St :=
  if ended s = true then s
  else
    let s1 := pushBuffer s buffer
    let s2 :=
      if s1.mode = Mode.IN_MEMORY_MODE ∧ passedThreshold cfg s1 = true then
        switchToInFileMode s1
      else if s1.mode = Mode.IN_FILE_MODE
              ∧ (∃ i, s1.inFileMode = some i ∧ i.writerState = WriterState.WS_INACTIVE)
              ∧ cfg.autoStartMover = true then
        moveNextBufferToFile s1
      else s1
    if s2.readerState = ReaderState.RS_INACTIVE then
      if s2.lower.acceptingInput = true then
        readNextFuel cfg (s2.nbuffers + 2) resps s2
      else
        readNextWhenChannelIdle s2
    else s2

/-- `feedError(errcode)` (public entry point): delegates to `setError`. -/
def feedErrorPub (e : Int) (s : St) : St := setError e s

/-- `FileBufferedChannel::reinitialize()`: delegates to
`Channel::reinitialize()` (modelled from the spec, Channel.h being absent
from the sources: the underlying channel becomes IDLE and the generation
counter is bumped) and re-checks the invariants; it touches none of the
FileBufferedChannel's own fields. -/
def reinitializeChannel (s : St) : St :=
  { s with lower := { s.lower with state := ChState.IDLE },
           generation := s.generation + 1 }

/-- `FileBufferedChannel::deinitialize()`: cancel reader and writer, clear the
queue, reset mode, reader state and errcode, drop `InFileMode`, then
`Channel::deinitialize()` (modelled from the spec: bumps the generation
counter). -/
def deinitializeChannel (s : St) : St :=
  let s1 := cancelReader s
  let s2 := if s1.mode = Mode.IN_FILE_MODE then cancelWriter s1 else s1
  let s3 := clearBuffers s2
  let s4 := { s3 with mode := Mode.IN_MEMORY_MODE,
                      readerState := ReaderState.RS_INACTIVE,
                      errcode := 0, inFileMode := none }
  { s4 with generation := s4.generation + 1 }

/-- `getWriterState()` reads `inFileMode->writerState` without a null check;
the embedding makes the partiality explicit with an `Option`. -/
def getWriterState (s : St) : Option WriterState :=
  s.inFileMode.map InFileMode.writerState

/-- The observable events of the system: public calls and eio completions.
An eio completion event whose corresponding request is not (or no longer)
stored in the state is a no-op — the request was cancelled and its callback
only frees the context.  Guards on the eio results restrict the environment to
results a real eio engine can return for the stored request. -/
inductive Ev
  | feed (buffer : Buf) (resps : List ConsumerResp)
  | feedErr (e : Int)
  | reinit
  | deinit
  | chConsumed (ns : ChState) (resps : List ConsumerResp)
  | fileCreated (result : Int) (err : Int)
  | writeComplete (result : Int) (err : Int)
  | readComplete (result : Int) (err : Int) (resps : List ConsumerResp)
deriving DecidableEq

/-- One step of the system. -/
def applyEv (cfg : Cfg) (s : St) (e : Ev) : St :=
  match e with
  | .feed buffer resps => feedWithoutRefGuard cfg buffer resps s
  | .feedErr er => feedErrorPub er s
  | .reinit => reinitializeChannel s
  | .deinit => deinitializeChannel s
  | .chConsumed ns resps =>
      if s.lower.state = ChState.CALLING ∧ (ns = ChState.IDLE ∨ ns = ChState.EOF_REACHED) then
        onChannelConsumed cfg resps { s with lower := { s.lower with state := ns } }
      else s
  | .fileCreated result err =>
      match s.inFileMode with
      | some i =>
        if i.writerRequest = some WriterReq.creating
           ∧ i.writerState = WriterState.WS_CREATING_FILE
           ∧ (0 ≤ result ∨ (result < 0 ∧ err ≠ 0)) then
          bufferFileCreated result err s
        else s
      | none => s
  | .writeComplete result err =>
      match s.inFileMode with
      | some i =>
        match i.writerRequest with
        | some (.moving b w off) =>
          if s.mode = Mode.IN_FILE_MODE ∧ i.writerState = WriterState.WS_MOVING
             ∧ ((0 ≤ result ∧ w + result.toNat ≤ b.length) ∨ (result < 0 ∧ err ≠ 0)) then
            bufferWrittenToFile result err b w off s
          else s
        | _ => s
      | none => s
  | .readComplete result err resps =>
      match s.inFileMode with
      | some i =>
        match i.readRequest with
        | some req =>
          if s.readerState = ReaderState.RS_READING_FROM_FILE
             ∧ ((0 ≤ result
                 ∧ result.toNat ≤ min req.size ((i.file.drop req.offset.toNat).length))
                ∨ (result < 0 ∧ err ≠ 0)) then
            nextChunkDoneReading cfg result err resps s
          else s
        | none => s
      | none => s

/-- Run a trace of events. -/
def run (cfg : Cfg) (s : St) (evs : List Ev) : St := evs.foldl (applyEv cfg) s

/-- The freshly constructed channel. -/
def initSt : St :=
  { mode := Mode.IN_MEMORY_MODE, readerState := ReaderState.RS_INACTIVE,
    nbuffers := 0, errcode := 0, bytesBuffered := 0, firstBuffer := [],
    moreBuffers := [], inFileMode := none,
    lower := { state := ChState.IDLE, fed := [], eofFed := false, errorsFed := [] },
    generation := 0 }

/-- Wellformedness of a public call event: error codes handed to `feedError`
are nonzero errno values. -/
def EvOK : Ev → Bool
  | .feedErr e => decide (e ≠ 0)
  | _ => true

/-- The global invariants of `verifyInvariants()` that the claims quantify
over: `errcode` vanishes exactly below `ERROR`, the `InFileMode` record exists
exactly in the in-file mode, and the error modes imply a terminated reader and
no `InFileMode` record. -/
def Inv (s : St) : Prop :=
  (s.errcode = 0 ↔ (s.mode = Mode.IN_MEMORY_MODE ∨ s.mode = Mode.IN_FILE_MODE))
  ∧ (s.inFileMode.isSome ↔ s.mode = Mode.IN_FILE_MODE)
  ∧ (s.mode.geError = true →
      s.readerState = ReaderState.RS_TERMINATED ∧ s.inFileMode = none)

/-- The in-memory queue as a list (front first). -/
def queueOf (s : St) : List Buf :=
  if s.nbuffers = 0 then [] else s.firstBuffer :: s.moreBuffers

/-- Coherence of the queue representation: `nbuffers` counts the queue,
`bytesBuffered` sums it, and an empty queue leaves the single-buffer slot
null. -/
def queueWF (s : St) : Prop :=
  (s.nbuffers = 0 → s.firstBuffer = [] ∧ s.moreBuffers = []) ∧
  (s.nbuffers ≠ 0 → s.nbuffers = s.moreBuffers.length + 1) ∧
  s.bytesBuffered = sumB (queueOf s)

/-- Writer-side coherence used on always-accepting runs. -/
def writerWF (cfg : Cfg) (s : St) (i : InFileMode) : Prop :=
  match i.writerState with
  | .WS_INACTIVE => i.writerRequest = none ∧ (cfg.autoStartMover = true → s.nbuffers = 0)
  | .WS_CREATING_FILE => i.writerRequest = some WriterReq.creating
  | .WS_MOVING => 0 < s.nbuffers ∧ s.firstBuffer ≠ [] ∧
      ∃ w off, i.writerRequest = some (WriterReq.moving s.firstBuffer w off)
        ∧ w < s.firstBuffer.length
  | .WS_TERMINATED => False

/-- Invariant of runs driven by an always-accepting consumer with no I/O
failures, before the EOS sentinel is fed: everything fed so far has already
been served downstream (the reader is always ahead of the writer), so
`written` is exactly minus the number of bytes still queued. -/
def AAInv (cfg : Cfg) (s : St) : Prop :=
  s.errcode = 0 ∧
  s.lower.state = ChState.IDLE ∧ s.lower.eofFed = false ∧
  s.readerState = ReaderState.RS_INACTIVE ∧
  queueWF s ∧ (∀ b ∈ queueOf s, b ≠ []) ∧
  ((s.mode = Mode.IN_MEMORY_MODE ∧ s.nbuffers = 0 ∧ s.inFileMode = none) ∨
   (s.mode = Mode.IN_FILE_MODE ∧ ∃ i, s.inFileMode = some i ∧
      i.written = -(s.bytesBuffered : Int) ∧ i.readRequest = none ∧ writerWF cfg s i))

/-- Events of an always-accepting, failure-free environment: feeds whose
consumer always accepts, successful or EEXIST-retried file creations, and
successful (possibly short) writes. -/
def isAAEv : Ev → Bool
  | .feed _ resps => decide (resps = [])
  | .fileCreated result err => decide (0 ≤ result ∨ (result < 0 ∧ err = EEXIST))
  | .writeComplete result _ => decide (0 ≤ result)
  | _ => false

/-- Is this event a feed of the EOS sentinel? -/
def isEosFeed : Ev → Bool
  | .feed [] _ => true
  | _ => false

/-- The non-EOS buffers fed by a trace, in order. -/
def dataFeedsOf (evs : List Ev) : List Buf :=
  evs.filterMap fun e =>
    match e with
    | .feed b _ => if b = [] then none else some b
    | _ => none

/-! ## Concrete configurations, states and traces used as test inputs -/

/-- A tiny-threshold configuration without auto-truncation. -/
def cfgA : Cfg :=
  { threshold := 1, delayInFileModeSwitching := 0,
    autoTruncateFile := false, autoStartMover := true, mbufSize := 1024 }

/-- A configuration with auto-truncation enabled. -/
def cfgT : Cfg :=
  { threshold := 2, delayInFileModeSwitching := 0,
    autoTruncateFile := true, autoStartMover := true, mbufSize := 1024 }

/-- Feed two bytes (spilling at threshold 1), create the buffer file, then the
`eio_write` of the front buffer completes short: one byte written. -/
def evsC2a : List Ev :=
  [Ev.feed [7, 8] [], Ev.fileCreated 3 0, Ev.writeComplete 1 0]

/-- ... and the continuation write also completes with one byte. -/
def evsC2b : List Ev := evsC2a ++ [Ev.writeComplete 1 0]

/-- A channel in the `ERROR` mode. -/
def sErr : St :=
  { initSt with mode := Mode.ERROR, errcode := 5,
                readerState := ReaderState.RS_TERMINATED }

/-- A channel in the `ERROR_WAITING` mode with a busy downstream channel. -/
def sEW : St :=
  { initSt with mode := Mode.ERROR_WAITING, errcode := 5,
                readerState := ReaderState.RS_TERMINATED,
                lower := { state := ChState.CALLING, fed := [],
                           eofFed := false, errorsFed := [] } }

/-- An in-file-mode channel with one undelivered queued buffer and one unread
byte on disk. -/
def sInFile : St :=
  { initSt with mode := Mode.IN_FILE_MODE, nbuffers := 1,
                firstBuffer := [5], bytesBuffered := 1,
                inFileMode := some { fd := 3, readRequest := none,
                                     writerState := WriterState.WS_INACTIVE,
                                     writerRequest := none, readOffset := 0,
                                     written := 1, file := [5] } }

/-- In-file mode whose queue consists solely of the EOS sentinel while
`written = -1` (the serve-ahead counter still owes one byte). -/
def s3C : St :=
  { initSt with mode := Mode.IN_FILE_MODE, nbuffers := 1,
                inFileMode := some { fd := 3, readRequest := none,
                                     writerState := WriterState.WS_MOVING,
                                     writerRequest := none, readOffset := 1,
                                     written := -1, file := [] } }

/-- In-file mode with queue `[[1], [2], [3]]` of which the first two buffers
(2 bytes) have already been served ahead (`written = -2`). -/
def sWq : St :=
  { initSt with mode := Mode.IN_FILE_MODE, nbuffers := 3,
                firstBuffer := [1], moreBuffers := [[2], [3]], bytesBuffered := 3,
                inFileMode := some { fd := 3, readRequest := none,
                                     writerState := WriterState.WS_INACTIVE,
                                     writerRequest := none, readOffset := 2,
                                     written := -2, file := [] } }

/-- In-file mode with queue `[[1], [2], []]` (EOS last) fully served ahead
(`written = -3 ≤ -(1+1)`). -/
def sWe : St :=
  { initSt with mode := Mode.IN_FILE_MODE, nbuffers := 3,
                firstBuffer := [1], moreBuffers := [[2], []], bytesBuffered := 2,
                inFileMode := some { fd := 3, readRequest := none,
                                     writerState := WriterState.WS_INACTIVE,
                                     writerRequest := none, readOffset := 2,
                                     written := -3, file := [] } }

/-- A channel in `ERROR` mode that still holds a queued buffer. -/
def s7 : St :=
  { initSt with mode := Mode.ERROR, errcode := 7,
                readerState := ReaderState.RS_TERMINATED,
                nbuffers := 1, firstBuffer := [3], bytesBuffered := 1 }

/-- A trace exercising a feed followed by a public error. -/
def evsC5 : List Ev := [Ev.feed [1] [], Ev.feedErr 9]

/-- An always-accepting trace crossing into in-file mode, with a short write
completion in the middle and an EOS feed at the end. -/
def evsC1 : List Ev :=
  [Ev.feed [1] [], Ev.feed [2, 3] [], Ev.fileCreated 3 0,
   Ev.writeComplete 1 0, Ev.feed [4] [], Ev.feed [] []]

/-! ## Theorems -/

/-- Helper: the fresh channel satisfies the global invariants. -/
theorem inv_initSt : Inv initSt := by
  simp [Inv, initSt, Mode.geError]

/-- C6: once `ended()` holds — the queue's last buffer is the EOS sentinel, or
the mode is an error mode, or the underlying channel has ended — `feed` is a
no-op: the state is returned unchanged (hence queue, counters, mode, reader
and writer state are all unchanged and nothing is enqueued). -/
theorem fbc_feed_noop_when_ended (cfg : Cfg) (buffer : Buf)
    (resps : List ConsumerResp) (s : St) (h : ended s = true) :
    feedWithoutRefGuard cfg buffer resps s = s := by
  simp [feedWithoutRefGuard, h]

/-- Witness for C6 at a concrete errored state. -/
theorem fbc_feed_noop_when_ended_witness :
    ended sErr = true ∧ feedWithoutRefGuard cfgA [1, 2] [] sErr = sErr :=
  ⟨by decide, fbc_feed_noop_when_ended cfgA [1, 2] [] sErr (by decide)⟩

/-- C8: `setError` (and the public `feedError`, which delegates to it) is
idempotent once the mode is `ERROR` or `ERROR_WAITING`: the state — mode,
errcode, reader state, queue, `InFileMode` — is returned unchanged, and in
particular nothing is fed to the underlying channel. -/
theorem fbc_set_error_idempotent (e : Int) (s : St)
    (h : s.mode = Mode.ERROR ∨ s.mode = Mode.ERROR_WAITING) :
    setError e s = s ∧ feedErrorPub e s = s := by
  have hg : s.mode.geError = true := by
    rcases h with h | h <;> simp [Mode.geError, h]
  refine ⟨?_, ?_⟩ <;> simp [setError, feedErrorPub, hg]

/-- Witness for C8 at a concrete errored state. -/
theorem fbc_set_error_idempotent_witness :
    (sErr.mode = Mode.ERROR ∨ sErr.mode = Mode.ERROR_WAITING)
    ∧ setError 11 sErr = sErr ∧ feedErrorPub 11 sErr = sErr :=
  ⟨Or.inl rfl, fbc_set_error_idempotent 11 sErr (Or.inl rfl)⟩

/-- C9: under the global invariants, `getWriterState()` — which dereferences
`inFileMode` without a null check, so the embedding returns an `Option` — has
a value exactly when `mode == IN_FILE_MODE`; for every other mode the lookup
has no value. -/
theorem fbc_get_writer_state_requires_in_file (s : St) (h : Inv s) :
    (getWriterState s).isSome = true ↔ s.mode = Mode.IN_FILE_MODE := by
  have h2 := h.2.1
  cases hifm : s.inFileMode <;>
    · simp only [getWriterState, hifm] at *
      simpa using h2

/-- Witness for C9 at the freshly constructed channel. -/
theorem fbc_get_writer_state_requires_in_file_witness :
    Inv initSt
    ∧ ((getWriterState initSt).isSome = true ↔ initSt.mode = Mode.IN_FILE_MODE) :=
  ⟨inv_initSt, fbc_get_writer_state_requires_in_file initSt inv_initSt⟩

/-- Helper: `cancelReader` only rewrites the `InFileMode` slot. -/
theorem cancelReader_shape (s : St) : ∃ o, cancelReader s = { s with inFileMode := o } := by
  obtain ⟨mo, rs, nb, ec, bb, fb, mb, ifm, lo, ge⟩ := s
  cases rs <;> cases ifm <;> exact ⟨_, rfl⟩

/-- Helper: `cancelWriter` only rewrites the `InFileMode` slot. -/
theorem cancelWriter_shape (s : St) : ∃ o, cancelWriter s = { s with inFileMode := o } := by
  obtain ⟨mo, rs, nb, ec, bb, fb, mb, ifm, lo, ge⟩ := s
  cases ifm with
  | none => exact ⟨none, rfl⟩
  | some i =>
    obtain ⟨fd, rr, ws, wr, ro, wn, fl⟩ := i
    cases ws <;> exact ⟨_, rfl⟩

/-- Helper: the exact effect of `deinitialize()`. -/
theorem deinitializeChannel_eq (s : St) :
    deinitializeChannel s =
      { s with mode := Mode.IN_MEMORY_MODE, readerState := ReaderState.RS_INACTIVE,
               nbuffers := 0, errcode := 0, bytesBuffered := 0, firstBuffer := [],
               moreBuffers := [], inFileMode := none,
               generation := s.generation + 1 } := by
  obtain ⟨mo, rs, nb, ec, bb, fb, mb, ifm, lo, ge⟩ := s
  cases mo <;> cases rs <;>
    (cases ifm with
     | none => rfl
     | some i =>
       obtain ⟨fd, rr, ws, wr, ro, wn, fl⟩ := i
       cases ws <;> rfl)

/-- C7 (corrected): `deinitialize()` clears the queue, resets mode, reader
state and errcode, drops the `InFileMode` record (and with it every stored
I/O request) and bumps the generation — from every starting state;
`reinitialize()`, in contrast, only resets the underlying channel and bumps
the generation, leaving the queue, mode, reader state, errcode and
`InFileMode` untouched. -/
theorem fbc_reset_amended (s : St) :
    ((deinitializeChannel s).nbuffers = 0
     ∧ (deinitializeChannel s).bytesBuffered = 0
     ∧ (deinitializeChannel s).mode = Mode.IN_MEMORY_MODE
     ∧ (deinitializeChannel s).readerState = ReaderState.RS_INACTIVE
     ∧ (deinitializeChannel s).errcode = 0
     ∧ (deinitializeChannel s).inFileMode = none
     ∧ (deinitializeChannel s).generation = s.generation + 1)
    ∧ ((reinitializeChannel s).generation = s.generation + 1
       ∧ (reinitializeChannel s).lower.state = ChState.IDLE
       ∧ (reinitializeChannel s).mode = s.mode
       ∧ (reinitializeChannel s).readerState = s.readerState
       ∧ (reinitializeChannel s).errcode = s.errcode
       ∧ (reinitializeChannel s).nbuffers = s.nbuffers
       ∧ (reinitializeChannel s).bytesBuffered = s.bytesBuffered
       ∧ (reinitializeChannel s).firstBuffer = s.firstBuffer
       ∧ (reinitializeChannel s).moreBuffers = s.moreBuffers
       ∧ (reinitializeChannel s).inFileMode = s.inFileMode) := by
  rw [deinitializeChannel_eq]
  simp [reinitializeChannel]

/-- Counterexample for C7 as stated: `reinitialize()` does not clear the
buffer queue, does not reset the mode and does not clear `errcode`. -/
theorem fbc_reinit_keeps_queue :
    (reinitializeChannel s7).nbuffers = 1
    ∧ (reinitializeChannel s7).mode = Mode.ERROR
    ∧ (reinitializeChannel s7).errcode = 7 := by
  exact ⟨rfl, rfl, rfl⟩

/-- C2 (code bug): after the `eio_write` of the front buffer `[7,8]` (issued
at file offset `readOffset + written = 0`) completes short with one byte, the
continuation write is issued again at `readOffset + written = 0` — not at
offset 1 — so the two writes overlap and after both complete the file holds
`[8]` instead of `[7,8]`. -/
theorem fbc_move_reissue_offset_bug :
    ((run cfgA initSt evsC2a).inFileMode.map InFileMode.writerRequest)
      = some (some (WriterReq.moving [7, 8] 1 0))
    ∧ ((run cfgA initSt evsC2b).inFileMode.map InFileMode.file) = some [8] := by
  exact ⟨rfl, rfl⟩

/-- Counterexample for C3 as stated: in `IN_FILE_MODE` with `written = -1` and
a non-empty queue whose first (and only) buffer is the EOS sentinel — which
sits at cumulative offset `0`, before the walk target `1` —
`findBufferForReadProcessing` reports the queue as drained instead of serving
the sentinel. -/
theorem fbc_find_buffer_first_eos_missed :
    s3C.firstBuffer = [] ∧ s3C.nbuffers = 1
    ∧ s3C.inFileMode.map InFileMode.written = some (-1)
    ∧ findBufferForReadProcessing s3C (-1) = none := by
  exact ⟨rfl, rfl, rfl, rfl⟩

/-- Helper: `sumB` over a cons. -/
theorem sumB_cons (b : Buf) (l : List Buf) : sumB (b :: l) = b.length + sumB l := by
  simp [sumB]

/-- Helper: `sumB` over an append. -/
theorem sumB_append (l1 l2 : List Buf) : sumB (l1 ++ l2) = sumB l1 + sumB l2 := by
  simp [sumB]

/-- Helper: the scan loop skips a block of nonempty buffers whose cumulative
size stays at or below the target. -/
theorem fbrpLoop_skip (target : Int) (pre : List Buf) :
    ∀ (rest : List Buf) (off : Int), (∀ b ∈ pre, b ≠ []) →
      off + (sumB pre : Int) ≤ target →
      fbrpLoop target off (pre ++ rest) = fbrpLoop target (off + (sumB pre : Int)) rest := by
  induction pre with
  | nil => intro rest off _ _; simp [sumB]
  | cons b pre ih =>
    intro rest off hne hle
    have hb : b ≠ [] := hne b (List.mem_cons_self _ _)
    have hblen : 1 ≤ b.length := by
      cases b with
      | nil => exact absurd rfl hb
      | cons x xs => simp
    rw [sumB_cons] at hle
    push_cast at hle
    have hoff : ¬(off = target ∨ b = []) := by
      have : (0 : Int) ≤ (sumB pre : Int) := Int.natCast_nonneg _
      refine not_or.mpr ⟨?_, hb⟩
      omega
    rw [List.cons_append, fbrpLoop, if_neg hoff,
      ih rest (off + b.length) (fun x hx => hne x (List.mem_cons_of_mem _ hx)) (by omega)]
    congr 1
    rw [sumB_cons]
    push_cast
    ring

/-- Helper: the scan loop finds nothing when it runs off the end of a block of
nonempty buffers whose cumulative size stays at or below the target. -/
theorem fbrpLoop_none (target : Int) (pre : List Buf) (off : Int)
    (hne : ∀ b ∈ pre, b ≠ []) (hle : off + (sumB pre : Int) ≤ target) :
    fbrpLoop target off pre = none := by
  have h := fbrpLoop_skip target pre [] off hne hle
  rw [List.append_nil] at h
  rw [h]
  rfl

/-- C3 (corrected): with a non-empty queue and `written ≤ 0`, the reader's
buffer search behaves as follows.  (1) If `written = 0` the first buffer is
served.  (2) If the walk target `-written` equals the cumulative size of the
first buffer plus a block of nonempty buffers, the next buffer after that
block is served.  (3) An EOS sentinel in `moreBuffers` whose cumulative
predecessors are nonempty and total at most the target is found and served.
(4) However — correcting the claim — an EOS sentinel in the *first* position
with a positive target is *not* found: the queue is reported as drained. -/
theorem fbc_find_buffer_amended (s : St) (written : Int) (h0 : ¬s.nbuffers = 0) :
    (written = 0 → findBufferForReadProcessing s written = some s.firstBuffer)
    ∧ (∀ pre q rest, s.moreBuffers = pre ++ q :: rest → s.firstBuffer ≠ [] →
        (∀ b ∈ pre, b ≠ []) →
        -written = ((s.firstBuffer.length + sumB pre : Nat) : Int) →
        findBufferForReadProcessing s written = some q)
    ∧ (∀ pre rest, s.moreBuffers = pre ++ [] :: rest → s.firstBuffer ≠ [] →
        (∀ b ∈ pre, b ≠ []) →
        ((s.firstBuffer.length + sumB pre : Nat) : Int) ≤ -written →
        findBufferForReadProcessing s written = some [])
    ∧ (s.firstBuffer = [] → s.moreBuffers = [] → written ≠ 0 →
        findBufferForReadProcessing s written = none) := by
  refine ⟨?_, ?_, ?_, ?_⟩
  · intro hw
    simp [findBufferForReadProcessing, h0, hw]
  · intro pre q rest hq hf hpre ht
    have hflen : 1 ≤ s.firstBuffer.length := by
      cases hfb : s.firstBuffer with
      | nil => exact absurd hfb hf
      | cons x xs => simp [hfb]
    have htar : ¬((0 : Int) = -written) := by
      rw [ht]; push_cast
      have : (0 : Int) ≤ (sumB pre : Int) := Int.natCast_nonneg _
      omega
    unfold findBufferForReadProcessing
    rw [if_neg h0, if_neg htar, hq,
      fbrpLoop_skip (-written) pre (q :: rest) (s.firstBuffer.length : Int) hpre
        (by rw [ht]; push_cast; omega)]
    rw [fbrpLoop, if_pos]
    left
    rw [ht]; push_cast; ring
  · intro pre rest hq hf hpre hle
    have hflen : 1 ≤ s.firstBuffer.length := by
      cases hfb : s.firstBuffer with
      | nil => exact absurd hfb hf
      | cons x xs => simp [hfb]
    have htar : ¬((0 : Int) = -written) := by
      push_cast at hle
      have : (0 : Int) ≤ (sumB pre : Int) := Int.natCast_nonneg _
      omega
    unfold findBufferForReadProcessing
    rw [if_neg h0, if_neg htar, hq,
      fbrpLoop_skip (-written) pre ([] :: rest) (s.firstBuffer.length : Int) hpre
        (by push_cast at hle ⊢; omega)]
    rw [fbrpLoop, if_pos (Or.inr rfl)]
  · intro hf hm hw
    have htar : ¬((0 : Int) = -written) := by omega
    unfold findBufferForReadProcessing
    rw [if_neg h0, if_neg htar, hm]
    rfl

/-- Witness for C3 (corrected), exercising all four parts on concrete
queues. -/
theorem fbc_find_buffer_amended_witness :
    findBufferForReadProcessing sWq 0 = some sWq.firstBuffer
    ∧ findBufferForReadProcessing sWq (-2) = some [3]
    ∧ findBufferForReadProcessing sWe (-3) = some []
    ∧ findBufferForReadProcessing s3C (-1) = none := by
  refine ⟨(fbc_find_buffer_amended sWq 0 (by decide)).1 rfl,
    (fbc_find_buffer_amended sWq (-2) (by decide)).2.1 [[2]] [3] []
      (by decide) (by decide) (by decide) (by decide),
    (fbc_find_buffer_amended sWe (-3) (by decide)).2.2.1 [[2]] []
      (by decide) (by decide) (by decide) (by decide),
    (fbc_find_buffer_amended s3C (-1) (by decide)).2.2.2
      (by decide) (by decide) (by decide)⟩

/-! ### Shape and mode-preservation helpers -/

/-- Helper: `withIFM` only rewrites the `InFileMode` slot. -/
theorem withIFM_shape (s : St) (f : InFileMode → InFileMode) :
    ∃ o, withIFM s f = { s with inFileMode := o } := by
  unfold withIFM
  cases hi : s.inFileMode
  · exact ⟨s.inFileMode, rfl⟩
  · exact ⟨_, rfl⟩

/-- Helper: `pushBuffer` only rewrites the queue fields. -/
theorem pushBuffer_shape (s : St) (b : Buf) :
    ∃ nb bb fb mb, pushBuffer s b =
      { s with nbuffers := nb, bytesBuffered := bb, firstBuffer := fb,
               moreBuffers := mb } := by
  unfold pushBuffer
  split <;> exact ⟨_, _, _, _, rfl⟩

/-- Helper: `popBuffer` only rewrites the queue fields. -/
theorem popBuffer_shape (s : St) :
    ∃ nb bb fb mb, popBuffer s =
      { s with nbuffers := nb, bytesBuffered := bb, firstBuffer := fb,
               moreBuffers := mb } := by
  obtain ⟨mo, rs, nb, ec, bb, fb, mb, ifm, lo, ge⟩ := s
  cases mb <;> exact ⟨_, _, _, _, rfl⟩

/-- Helper: `popBuffer` preserves the mode. -/
theorem popBuffer_mode (s : St) : (popBuffer s).mode = s.mode := by
  obtain ⟨nb, bb, fb, mb, hp⟩ := popBuffer_shape s
  rw [hp]

/-- Helper: `moveNextBufferToFile` only rewrites the `InFileMode` slot. -/
theorem moveNext_shape (s : St) :
    ∃ o, moveNextBufferToFile s = { s with inFileMode := o } := by
  unfold moveNextBufferToFile
  cases hi : s.inFileMode
  · exact ⟨s.inFileMode, rfl⟩
  · split_ifs <;> exact ⟨_, rfl⟩

/-- Helper: `moveNextBufferToFile` preserves the mode. -/
theorem moveNext_mode (s : St) : (moveNextBufferToFile s).mode = s.mode := by
  obtain ⟨o, h⟩ := moveNext_shape s
  rw [h]

/-- Helper: `createBufferFile` only rewrites the `InFileMode` slot. -/
theorem createBufferFile_shape (s : St) :
    ∃ o, createBufferFile s = { s with inFileMode := o } :=
  withIFM_shape s _

/-- Helper: `readNextChunkFromFile` only rewrites the reader state and the
`InFileMode` slot. -/
theorem readNextChunk_shape (cfg : Cfg) (s : St) :
    ∃ o r, readNextChunkFromFile cfg s = { s with readerState := r, inFileMode := o } := by
  unfold readNextChunkFromFile
  cases hi : s.inFileMode
  · exact ⟨s.inFileMode, s.readerState, rfl⟩
  · exact ⟨_, _, rfl⟩

/-- Helper: `readNextChunkFromFile` preserves the mode. -/
theorem readNextChunk_mode (cfg : Cfg) (s : St) :
    (readNextChunkFromFile cfg s).mode = s.mode := by
  obtain ⟨o, r, h⟩ := readNextChunk_shape cfg s
  rw [h]

/-- Helper: `setError` is the identity once the mode is an error mode. -/
theorem setError_of_geError (e : Int) (s : St) (h : s.mode.geError = true) :
    setError e s = s := by
  simp [setError, h]

/-- Helper: from a non-error mode, `setError` moves to `ERROR` or
`ERROR_WAITING`. -/
theorem setError_mode_not_mem (e : Int) (s : St) (h : s.mode.geError = false) :
    (setError e s).mode = Mode.ERROR ∨ (setError e s).mode = Mode.ERROR_WAITING := by
  unfold setError
  rw [h]
  simp only [Bool.false_eq_true, if_false]
  split <;> split <;> first
    | exact Or.inl rfl
    | exact Or.inr rfl

/-- Helper: `setError` never produces the in-memory mode from a state that is
not in it. -/
theorem setError_not_mem (e : Int) (s : St) (h : s.mode ≠ Mode.IN_MEMORY_MODE) :
    (setError e s).mode ≠ Mode.IN_MEMORY_MODE := by
  by_cases hg : s.mode.geError = true
  · rw [setError_of_geError e s hg]; exact h
  · rcases setError_mode_not_mem e s (by simpa using hg) with h2 | h2 <;>
      rw [h2] <;> intro hc <;> exact Mode.noConfusion hc

/-- Helper: the reader loop returns immediately in `ERROR_WAITING`. -/
theorem readNextFuel_of_errorWaiting (cfg : Cfg) (fuel : Nat)
    (resps : List ConsumerResp) (s : St) (h : s.mode = Mode.ERROR_WAITING) :
    readNextFuel cfg fuel resps s = s := by
  cases fuel with
  | zero => rfl
  | succ n => rw [readNextFuel, h]

/-- Helper: the reader loop returns immediately in `ERROR`. -/
theorem readNextFuel_of_error (cfg : Cfg) (fuel : Nat)
    (resps : List ConsumerResp) (s : St) (h : s.mode = Mode.ERROR) :
    readNextFuel cfg fuel resps s = s := by
  cases fuel with
  | zero => rfl
  | succ n => rw [readNextFuel, h]

/-- Helper: with auto-truncation disabled the epilogue does nothing. -/
theorem autoTruncAfter_of_false (cfg : Cfg) (s : St)
    (h : cfg.autoTruncateFile = false) : autoTruncAfter cfg s = s := by
  simp [autoTruncAfter, h]

/-- Helper: with auto-truncation disabled the reader loop never changes the
mode. -/
theorem readNextFuel_mode (cfg : Cfg) (hAT : cfg.autoTruncateFile = false) :
    ∀ (fuel : Nat) (resps : List ConsumerResp) (s : St),
      (readNextFuel cfg fuel resps s).mode = s.mode := by
  intro fuel
  induction fuel with
  | zero => intro resps s; rfl
  | succ n ih =>
    intro resps s
    rw [readNextFuel]
    cases hm : s.mode with
    | IN_MEMORY_MODE =>
      dsimp only
      split_ifs with h1 h2 h3 h4
      · rfl
      · rfl
      · rw [ih]
        dsimp only
        rw [popBuffer_mode]
        exact hm
      · dsimp only [readNextWhenChannelIdle]
        rw [popBuffer_mode]
        exact hm
      · dsimp only [terminateReaderBecauseOfEOF]
        rw [popBuffer_mode]
        exact hm
    | IN_FILE_MODE =>
      cases hi : s.inFileMode with
      | none => exact hm
      | some i =>
        dsimp only
        split_ifs with h1
        · rw [readNextChunk_mode]
          exact hm
        · cases hfb : findBufferForReadProcessing s i.written with
          | none =>
            rw [autoTruncAfter_of_false _ _ hAT]
          | some b =>
            dsimp only
            split_ifs with h2 h3 h4
            · rfl
            · rw [ih]
            · rfl
            · rfl
    | ERROR => exact hm
    | ERROR_WAITING => exact hm

/-- Helper: `pushBuffer` preserves the mode. -/
theorem pushBuffer_mode (s : St) (b : Buf) : (pushBuffer s b).mode = s.mode := by
  obtain ⟨nb, bb, fb, mb, hp⟩ := pushBuffer_shape s b
  rw [hp]

/-- Helper: `withIFM` preserves the mode. -/
theorem withIFM_mode (s : St) (f : InFileMode → InFileMode) :
    (withIFM s f).mode = s.mode := by
  obtain ⟨o, ho⟩ := withIFM_shape s f
  rw [ho]

/-- Helper: `createBufferFile` preserves the mode. -/
theorem createBufferFile_mode (s : St) : (createBufferFile s).mode = s.mode :=
  withIFM_mode s _

/-- Helper: an error mode makes `ended()` true. -/
theorem ended_of_geError (s : St) (h : s.mode.geError = true) : ended s = true := by
  simp [ended, h]

/-- Helper: the consumed subscription never changes an `ERROR_WAITING`
mode. -/
theorem onChannelConsumed_mode_ew (cfg : Cfg) (resps : List ConsumerResp) (s : St)
    (h : s.mode = Mode.ERROR_WAITING) :
    (onChannelConsumed cfg resps s).mode = Mode.ERROR_WAITING := by
  unfold onChannelConsumed feedErrorWhenChannelIdleOrEnded
  split_ifs with h1 h2 h3
  all_goals try exact h
  rw [readNextFuel_of_errorWaiting]
  · exact h
  · exact h

/-- Helper: restatement of `setError_of_geError` on the mode projection, in a
form usable as a conditional rewrite. -/
theorem setError_mode_ge (e : Int) (s : St) (hg : s.mode.geError = true) :
    (setError e s).mode = s.mode := by
  rw [setError_of_geError e s hg]

/-- Helper: `bufferFileCreated` preserves an error mode. -/
theorem bufferFileCreated_mode_ge (r e : Int) (s : St) (hg : s.mode.geError = true) :
    (bufferFileCreated r e s).mode = s.mode := by
  unfold bufferFileCreated
  cases hi : s.inFileMode with
  | none => rfl
  | some i =>
    dsimp only
    split_ifs with h1 h2
    · rw [moveNext_mode]
    · rw [createBufferFile_mode, withIFM_mode]
    · rw [setError_mode_ge]
      exact hg

/-- Helper: a read completion never changes an `ERROR_WAITING` mode. -/
theorem nextChunkDoneReading_mode_ew (cfg : Cfg) (r e : Int)
    (resps : List ConsumerResp) (s : St) (h : s.mode = Mode.ERROR_WAITING) :
    (nextChunkDoneReading cfg r e resps s).mode = Mode.ERROR_WAITING := by
  have hg : s.mode.geError = true := by rw [h]; rfl
  unfold nextChunkDoneReading
  cases hi : s.inFileMode with
  | none => exact h
  | some i =>
    dsimp only
    cases hr : i.readRequest with
    | none => exact h
    | some req =>
      dsimp only
      split_ifs with h1 h2 h3
      · rw [readNextFuel_of_errorWaiting]
        · exact h
        · exact h
      · exact h
      · exact h
      · rw [setError_mode_ge]
        · exact h
        · exact hg

/-- C10: once the mode is `ERROR_WAITING`, no event other than
`deinitialize` — in particular not the consumed-event subscription that
delivers the deferred error to the underlying channel — ever changes the mode;
it never becomes `ERROR`. -/
theorem fbc_error_waiting_never_error (cfg : Cfg) (s : St) (e : Ev)
    (h : s.mode = Mode.ERROR_WAITING) (hne : e ≠ Ev.deinit) :
    (applyEv cfg s e).mode = Mode.ERROR_WAITING := by
  have hg : s.mode.geError = true := by rw [h]; rfl
  cases e with
  | feed buffer resps =>
    show (feedWithoutRefGuard cfg buffer resps s).mode = _
    unfold feedWithoutRefGuard
    rw [ended_of_geError s hg]
    simp only [if_true]
    exact h
  | feedErr e2 =>
    show (setError e2 s).mode = _
    rw [setError_of_geError _ _ hg]
    exact h
  | reinit => exact h
  | deinit => exact absurd rfl hne
  | chConsumed ns resps =>
    dsimp only [applyEv]
    split_ifs with h1
    · exact onChannelConsumed_mode_ew cfg resps _ h
    · exact h
  | fileCreated r err =>
    dsimp only [applyEv]
    cases hi : s.inFileMode with
    | none => exact h
    | some i =>
      dsimp only
      split_ifs with h1
      · rw [bufferFileCreated_mode_ge r err s hg]
        exact h
      · exact h
  | writeComplete r err =>
    dsimp only [applyEv]
    cases hi : s.inFileMode with
    | none => exact h
    | some i =>
      dsimp only
      cases hw : i.writerRequest with
      | none => exact h
      | some wr =>
        cases wr with
        | creating => exact h
        | moving b w off =>
          dsimp only
          split_ifs with h1
          · rw [h] at h1
            exact absurd h1.1 (by decide)
          · exact h
  | readComplete r err resps =>
    dsimp only [applyEv]
    cases hi : s.inFileMode with
    | none => exact h
    | some i =>
      dsimp only
      cases hr : i.readRequest with
      | none => exact h
      | some req =>
        dsimp only
        split_ifs with h1
        · exact nextChunkDoneReading_mode_ew cfg r err resps s h
        · exact h

/-- Witness for C10: delivering the deferred error from the consumed event
leaves the mode at `ERROR_WAITING`. -/
theorem fbc_error_waiting_never_error_witness :
    sEW.mode = Mode.ERROR_WAITING
    ∧ (Ev.chConsumed ChState.IDLE [] ≠ Ev.deinit)
    ∧ (applyEv cfgA sEW (Ev.chConsumed ChState.IDLE [])).mode = Mode.ERROR_WAITING :=
  ⟨rfl, by decide,
    fbc_error_waiting_never_error cfgA sEW (Ev.chConsumed ChState.IDLE [])
      rfl (by decide)⟩

/-- Helper: `bufferFileCreated` never switches to the in-memory mode. -/
theorem bufferFileCreated_not_mem (r e : Int) (s : St)
    (h : s.mode ≠ Mode.IN_MEMORY_MODE) :
    (bufferFileCreated r e s).mode ≠ Mode.IN_MEMORY_MODE := by
  unfold bufferFileCreated
  cases hi : s.inFileMode with
  | none => exact h
  | some i =>
    dsimp only
    split_ifs with h1 h2
    · rw [moveNext_mode]
      exact h
    · rw [createBufferFile_mode, withIFM_mode]
      exact h
    · exact setError_not_mem e _ h

/-- Helper: `bufferWrittenToFile` never switches to the in-memory mode. -/
theorem bufferWrittenToFile_not_mem (r e : Int) (b : Buf) (w : Nat) (off : Int)
    (s : St) (h : s.mode ≠ Mode.IN_MEMORY_MODE) :
    (bufferWrittenToFile r e b w off s).mode ≠ Mode.IN_MEMORY_MODE := by
  unfold bufferWrittenToFile
  cases hi : s.inFileMode with
  | none => exact h
  | some i =>
    dsimp only
    split_ifs with h1 h2
    · rw [moveNext_mode, popBuffer_mode]
      exact h
    · exact h
    · exact setError_not_mem e _ h

/-- Helper: with auto-truncation disabled, a read completion never switches to
the in-memory mode. -/
theorem nextChunkDoneReading_not_mem (cfg : Cfg) (hAT : cfg.autoTruncateFile = false)
    (r e : Int) (resps : List ConsumerResp) (s : St)
    (h : s.mode ≠ Mode.IN_MEMORY_MODE) :
    (nextChunkDoneReading cfg r e resps s).mode ≠ Mode.IN_MEMORY_MODE := by
  unfold nextChunkDoneReading
  cases hi : s.inFileMode with
  | none => exact h
  | some i =>
    dsimp only
    cases hr : i.readRequest with
    | none => exact h
    | some req =>
      dsimp only
      split_ifs with h1 h2 h3
      · rw [readNextFuel_mode cfg hAT]
        exact h
      · exact h
      · exact h
      · exact setError_not_mem e _ h

/-- Helper: `readNextWhenChannelIdle` preserves the mode. -/
theorem readNextWhenChannelIdle_mode (s : St) :
    (readNextWhenChannelIdle s).mode = s.mode := rfl

/-- Helper: with auto-truncation disabled, `feed` never switches out of a
non-in-memory mode into the in-memory mode. -/
theorem feed_not_mem (cfg : Cfg) (hAT : cfg.autoTruncateFile = false)
    (buffer : Buf) (resps : List ConsumerResp) (s : St)
    (h : s.mode ≠ Mode.IN_MEMORY_MODE) :
    (feedWithoutRefGuard cfg buffer resps s).mode ≠ Mode.IN_MEMORY_MODE := by
  unfold feedWithoutRefGuard
  dsimp only
  split_ifs with h1 h2 h3 h4 h5 h6 h7 h8 h9 <;>
    first
      | exact h
      | exact absurd ((pushBuffer_mode s buffer).symm.trans h2.1) h
      | (rw [readNextFuel_mode cfg hAT]
         first
           | (rw [moveNext_mode, pushBuffer_mode]; exact h)
           | (rw [pushBuffer_mode]; exact h))
      | (rw [readNextWhenChannelIdle_mode, moveNext_mode, pushBuffer_mode]; exact h)
      | (rw [readNextWhenChannelIdle_mode, pushBuffer_mode]; exact h)
      | (rw [moveNext_mode, pushBuffer_mode]; exact h)
      | (rw [pushBuffer_mode]; exact h)

/-- Helper: with auto-truncation disabled, no event except `deinitialize` can
bring the mode from outside the in-memory mode back into it. -/
theorem applyEv_not_to_mem (cfg : Cfg) (s : St) (e : Ev)
    (hAT : cfg.autoTruncateFile = false) (hmode : s.mode ≠ Mode.IN_MEMORY_MODE)
    (hne : e ≠ Ev.deinit) :
    (applyEv cfg s e).mode ≠ Mode.IN_MEMORY_MODE := by
  cases e with
  | feed buffer resps => exact feed_not_mem cfg hAT buffer resps s hmode
  | feedErr e2 => exact setError_not_mem e2 s hmode
  | reinit => exact hmode
  | deinit => exact absurd rfl hne
  | chConsumed ns resps =>
    dsimp only [applyEv]
    split_ifs with h1
    · unfold onChannelConsumed
      split_ifs with h2 h3 h4
      · rw [readNextFuel_mode cfg hAT]
        exact hmode
      · exact hmode
      · unfold feedErrorWhenChannelIdleOrEnded
        split_ifs <;> exact hmode
      · exact hmode
    · exact hmode
  | fileCreated r err =>
    dsimp only [applyEv]
    cases hi : s.inFileMode with
    | none => exact hmode
    | some i =>
      dsimp only
      split_ifs with h1
      · exact bufferFileCreated_not_mem r err s hmode
      · exact hmode
  | writeComplete r err =>
    dsimp only [applyEv]
    cases hi : s.inFileMode with
    | none => exact hmode
    | some i =>
      dsimp only
      cases hw : i.writerRequest with
      | none => exact hmode
      | some wr =>
        cases wr with
        | creating => exact hmode
        | moving b w off =>
          dsimp only
          split_ifs with h1
          · exact bufferWrittenToFile_not_mem r err b w off s hmode
          · exact hmode
  | readComplete r err resps =>
    dsimp only [applyEv]
    cases hi : s.inFileMode with
    | none => exact hmode
    | some i =>
      dsimp only
      cases hr : i.readRequest with
      | none => exact hmode
      | some req =>
        dsimp only
        split_ifs with h1
        · exact nextChunkDoneReading_not_mem cfg hAT r err resps s hmode
        · exact hmode

/-- Helper: the reader loop switches the mode from `IN_FILE_MODE` to
`IN_MEMORY_MODE` only with `autoTruncateFile` enabled, and then the result is
exactly `switchToInMemoryMode` of a reader state in which
`findBufferForReadProcessing` found no buffer to serve and `written ≤ 0`. -/
theorem readNextFuel_file_to_mem (cfg : Cfg) :
    ∀ (fuel : Nat) (resps : List ConsumerResp) (s : St),
      (readNextFuel cfg fuel resps s).mode = Mode.IN_MEMORY_MODE →
      s.mode = Mode.IN_FILE_MODE →
      cfg.autoTruncateFile = true ∧
      ∃ s' i', s'.mode = Mode.IN_FILE_MODE ∧ s'.inFileMode = some i'
        ∧ findBufferForReadProcessing s' i'.written = none
        ∧ i'.written ≤ 0
        ∧ readNextFuel cfg fuel resps s =
            switchToInMemoryMode { s' with readerState := ReaderState.RS_INACTIVE } := by
  intro fuel
  induction fuel with
  | zero =>
    intro resps s hmem hm
    rw [readNextFuel, hm] at hmem
    exact absurd hmem (by decide)
  | succ n ih =>
    intro resps s hmem hm
    rw [readNextFuel, hm] at hmem ⊢
    dsimp only at hmem ⊢
    cases hi : s.inFileMode with
    | none =>
      rw [hi] at hmem
      dsimp only at hmem
      rw [hm] at hmem
      exact absurd hmem (by decide)
    | some i =>
      rw [hi] at hmem
      dsimp only at hmem ⊢
      by_cases h1 : 0 < i.written
      · rw [if_pos h1] at hmem
        rw [readNextChunk_mode, hm] at hmem
        exact absurd hmem (by decide)
      · rw [if_neg h1] at hmem ⊢
        cases hfb : findBufferForReadProcessing s i.written with
        | none =>
          rw [hfb] at hmem
          dsimp only at hmem ⊢
          unfold autoTruncAfter at hmem ⊢
          by_cases hat : cfg.autoTruncateFile = true
          · rw [if_pos hat] at hmem ⊢
            exact ⟨hat, { s with mode := Mode.IN_FILE_MODE, inFileMode := some i },
              i, rfl, rfl, hfb, by omega, rfl⟩
          · rw [if_neg hat] at hmem
            exact Mode.noConfusion hmem
        | some b =>
          rw [hfb] at hmem
          dsimp only at hmem ⊢
          by_cases h2 : b = []
          · rw [if_pos h2] at hmem
            exact Mode.noConfusion hmem
          · rw [if_neg h2] at hmem ⊢
            split_ifs at hmem ⊢ with h3 h4
            · exact ih (tailResps resps) _ hmem rfl
            · exact Mode.noConfusion hmem
            · exact Mode.noConfusion hmem

/-- Helper: a read completion switches the mode from `IN_FILE_MODE` to
`IN_MEMORY_MODE` only through the reader's drained-queue switch. -/
theorem nextChunkDoneReading_file_to_mem (cfg : Cfg) (r e : Int)
    (resps : List ConsumerResp) (s : St)
    (hmem : (nextChunkDoneReading cfg r e resps s).mode = Mode.IN_MEMORY_MODE)
    (hm : s.mode = Mode.IN_FILE_MODE) :
    cfg.autoTruncateFile = true ∧
    ∃ s' i', s'.mode = Mode.IN_FILE_MODE ∧ s'.inFileMode = some i'
      ∧ findBufferForReadProcessing s' i'.written = none
      ∧ i'.written ≤ 0
      ∧ nextChunkDoneReading cfg r e resps s =
          switchToInMemoryMode { s' with readerState := ReaderState.RS_INACTIVE } := by
  unfold nextChunkDoneReading at hmem ⊢
  cases hi : s.inFileMode with
  | none =>
    rw [hi] at hmem
    dsimp only at hmem
    rw [hm] at hmem
    exact absurd hmem (by decide)
  | some i =>
    rw [hi] at hmem
    dsimp only at hmem ⊢
    cases hr : i.readRequest with
    | none =>
      rw [hr] at hmem
      dsimp only at hmem
      rw [hm] at hmem
      exact absurd hmem (by decide)
    | some req =>
      rw [hr] at hmem
      dsimp only at hmem ⊢
      by_cases h1 : 0 ≤ r
      · rw [if_pos h1] at hmem ⊢
        try dsimp only at hmem ⊢
        split_ifs at hmem ⊢ with h2 h3
        · exact readNextFuel_file_to_mem cfg _ _ _ hmem hm
        · rw [readNextWhenChannelIdle_mode] at hmem
          try dsimp only at hmem
          rw [hm] at hmem
          exact absurd hmem (by decide)
        · dsimp only [terminateReaderBecauseOfEOF] at hmem
          try dsimp only at hmem
          rw [hm] at hmem
          exact absurd hmem (by decide)
      · rw [if_neg h1] at hmem
        exact absurd hmem (setError_not_mem e _
          (show s.mode ≠ Mode.IN_MEMORY_MODE by rw [hm]; decide))

/-- Helper: a consumed notification switches the mode from `IN_FILE_MODE` to
`IN_MEMORY_MODE` only through the reader's drained-queue switch. -/
theorem onChannelConsumed_file_to_mem (cfg : Cfg) (resps : List ConsumerResp)
    (s : St)
    (hmem : (onChannelConsumed cfg resps s).mode = Mode.IN_MEMORY_MODE)
    (hm : s.mode = Mode.IN_FILE_MODE) :
    cfg.autoTruncateFile = true ∧
    ∃ s' i', s'.mode = Mode.IN_FILE_MODE ∧ s'.inFileMode = some i'
      ∧ findBufferForReadProcessing s' i'.written = none
      ∧ i'.written ≤ 0
      ∧ onChannelConsumed cfg resps s =
          switchToInMemoryMode { s' with readerState := ReaderState.RS_INACTIVE } := by
  unfold onChannelConsumed at hmem ⊢
  split_ifs at hmem ⊢ with h1 h2 h3
  · exact readNextFuel_file_to_mem cfg _ _ _ hmem hm
  · dsimp only [terminateReaderBecauseOfEOF] at hmem
    rw [hm] at hmem
    exact absurd hmem (by decide)
  · exact absurd (hm.symm.trans h3) (by decide)
  · rw [hm] at hmem
    exact absurd hmem (by decide)

/-- Helper: a `feed` switches the mode from `IN_FILE_MODE` to `IN_MEMORY_MODE`
only through the reader's drained-queue switch. -/
theorem feed_file_to_mem (cfg : Cfg) (buffer : Buf) (resps : List ConsumerResp)
    (s : St)
    (hmem : (feedWithoutRefGuard cfg buffer resps s).mode = Mode.IN_MEMORY_MODE)
    (hm : s.mode = Mode.IN_FILE_MODE) :
    cfg.autoTruncateFile = true ∧
    ∃ s' i', s'.mode = Mode.IN_FILE_MODE ∧ s'.inFileMode = some i'
      ∧ findBufferForReadProcessing s' i'.written = none
      ∧ i'.written ≤ 0
      ∧ feedWithoutRefGuard cfg buffer resps s =
          switchToInMemoryMode { s' with readerState := ReaderState.RS_INACTIVE } := by
  unfold feedWithoutRefGuard at hmem ⊢
  dsimp only at hmem ⊢
  have hpm : (pushBuffer s buffer).mode = Mode.IN_FILE_MODE :=
    (pushBuffer_mode s buffer).trans hm
  by_cases h1 : ended s = true
  · rw [if_pos h1] at hmem
    exact absurd (hm.symm.trans hmem) (by decide)
  · rw [if_neg h1] at hmem ⊢
    have hC1n : ¬((pushBuffer s buffer).mode = Mode.IN_MEMORY_MODE
        ∧ passedThreshold cfg (pushBuffer s buffer) = true) :=
      fun hc => absurd (hpm.symm.trans hc.1) (by decide)
    rw [if_neg hC1n] at hmem ⊢
    by_cases hc2 : (pushBuffer s buffer).mode = Mode.IN_FILE_MODE
        ∧ (∃ i', (pushBuffer s buffer).inFileMode = some i'
            ∧ i'.writerState = WriterState.WS_INACTIVE)
        ∧ cfg.autoStartMover = true
    · rw [if_pos hc2] at hmem ⊢
      have hm2 : (moveNextBufferToFile (pushBuffer s buffer)).mode
          = Mode.IN_FILE_MODE := (moveNext_mode _).trans hpm
      by_cases hrs : (moveNextBufferToFile (pushBuffer s buffer)).readerState
          = ReaderState.RS_INACTIVE
      · rw [if_pos hrs] at hmem ⊢
        by_cases hacc : (moveNextBufferToFile
            (pushBuffer s buffer)).lower.acceptingInput = true
        · rw [if_pos hacc] at hmem ⊢
          exact readNextFuel_file_to_mem cfg _ _ _ hmem hm2
        · rw [if_neg hacc] at hmem
          rw [readNextWhenChannelIdle_mode] at hmem
          exact absurd (hm2.symm.trans hmem) (by decide)
      · rw [if_neg hrs] at hmem
        exact absurd (hm2.symm.trans hmem) (by decide)
    · rw [if_neg hc2] at hmem ⊢
      by_cases hrs : (pushBuffer s buffer).readerState = ReaderState.RS_INACTIVE
      · rw [if_pos hrs] at hmem ⊢
        by_cases hacc : (pushBuffer s buffer).lower.acceptingInput = true
        · rw [if_pos hacc] at hmem ⊢
          exact readNextFuel_file_to_mem cfg _ _ _ hmem hpm
        · rw [if_neg hacc] at hmem
          rw [readNextWhenChannelIdle_mode] at hmem
          exact absurd (hpm.symm.trans hmem) (by decide)
      · rw [if_neg hrs] at hmem
        exact absurd (hpm.symm.trans hmem) (by decide)

/-- Helper: apart from `deinitialize`, an event switches the mode from
`IN_FILE_MODE` to `IN_MEMORY_MODE` only through the reader's drained-queue
switch. -/
theorem applyEv_file_to_mem (cfg : Cfg) (s : St) (e : Ev)
    (hm : s.mode = Mode.IN_FILE_MODE) (hd : e ≠ Ev.deinit)
    (hmem : (applyEv cfg s e).mode = Mode.IN_MEMORY_MODE) :
    cfg.autoTruncateFile = true ∧
    ∃ s' i', s'.mode = Mode.IN_FILE_MODE ∧ s'.inFileMode = some i'
      ∧ findBufferForReadProcessing s' i'.written = none
      ∧ i'.written ≤ 0
      ∧ applyEv cfg s e =
          switchToInMemoryMode { s' with readerState := ReaderState.RS_INACTIVE } := by
  cases e with
  | feed buffer resps => exact feed_file_to_mem cfg buffer resps s hmem hm
  | feedErr e2 =>
    exact absurd hmem (setError_not_mem e2 s
      (show s.mode ≠ Mode.IN_MEMORY_MODE by rw [hm]; decide))
  | reinit =>
    exact absurd (hm.symm.trans (show s.mode = Mode.IN_MEMORY_MODE from hmem))
      (by decide)
  | deinit => exact absurd rfl hd
  | chConsumed ns resps =>
    dsimp only [applyEv] at hmem ⊢
    split_ifs at hmem ⊢ with hg
    · exact onChannelConsumed_file_to_mem cfg resps _ hmem hm
    · exact absurd (hm.symm.trans hmem) (by decide)
  | fileCreated r err =>
    dsimp only [applyEv] at hmem ⊢
    cases hi : s.inFileMode with
    | none =>
      rw [hi] at hmem
      dsimp only at hmem
      exact absurd (hm.symm.trans hmem) (by decide)
    | some i =>
      rw [hi] at hmem
      dsimp only at hmem
      split_ifs at hmem with hg
      · exact absurd hmem (bufferFileCreated_not_mem r err s
          (show s.mode ≠ Mode.IN_MEMORY_MODE by rw [hm]; decide))
      · exact absurd (hm.symm.trans hmem) (by decide)
  | writeComplete r err =>
    dsimp only [applyEv] at hmem ⊢
    cases hi : s.inFileMode with
    | none =>
      rw [hi] at hmem
      dsimp only at hmem
      exact absurd (hm.symm.trans hmem) (by decide)
    | some i =>
      rw [hi] at hmem
      dsimp only at hmem
      cases hwr : i.writerRequest with
      | none =>
        rw [hwr] at hmem
        dsimp only at hmem
        exact absurd (hm.symm.trans hmem) (by decide)
      | some wr =>
        rw [hwr] at hmem
        cases wr with
        | creating =>
          dsimp only at hmem
          exact absurd (hm.symm.trans hmem) (by decide)
        | moving b w off =>
          dsimp only at hmem
          split_ifs at hmem with hg
          · exact absurd hmem (bufferWrittenToFile_not_mem r err b w off s
              (show s.mode ≠ Mode.IN_MEMORY_MODE by rw [hm]; decide))
          · exact absurd (hm.symm.trans hmem) (by decide)
  | readComplete r err resps =>
    dsimp only [applyEv] at hmem ⊢
    cases hi : s.inFileMode with
    | none =>
      rw [hi] at hmem
      dsimp only at hmem
      exact absurd (hm.symm.trans hmem) (by decide)
    | some i =>
      rw [hi] at hmem
      dsimp only at hmem ⊢
      cases hr : i.readRequest with
      | none =>
        rw [hr] at hmem
        dsimp only at hmem
        exact absurd (hm.symm.trans hmem) (by decide)
      | some req =>
        rw [hr] at hmem
        dsimp only at hmem ⊢
        split_ifs at hmem ⊢ with hg
        · exact nextChunkDoneReading_file_to_mem cfg r err resps s hmem hm
        · exact absurd (hm.symm.trans hmem) (by decide)

/-- C4 (corrected): apart from `deinitialize` — which resets the whole channel
to the in-memory mode from any state — the only step that returns the mode
from `IN_FILE_MODE` to `IN_MEMORY_MODE` is the reader's drained-queue switch:
`autoTruncateFile` must be enabled, and the resulting state is exactly
`switchToInMemoryMode` of a reader state in which
`findBufferForReadProcessing` found no buffer left to serve and
`written ≤ 0`.  In particular, excluding `deinitialize`, the mode never
returns to the in-memory mode when `autoTruncateFile` is false, or while an
unserved buffer remains in the queue, or while `written > 0` at the switch
point. -/
theorem fbc_mode_monotonic_amended (cfg : Cfg) (s : St) (e : Ev)
    (h1 : s.mode = Mode.IN_FILE_MODE)
    (h2 : (applyEv cfg s e).mode = Mode.IN_MEMORY_MODE) :
    e = Ev.deinit ∨
      (cfg.autoTruncateFile = true ∧
       ∃ s' i', s'.mode = Mode.IN_FILE_MODE ∧ s'.inFileMode = some i'
         ∧ findBufferForReadProcessing s' i'.written = none
         ∧ i'.written ≤ 0
         ∧ applyEv cfg s e =
             switchToInMemoryMode { s' with readerState := ReaderState.RS_INACTIVE }) := by
  by_cases hd : e = Ev.deinit
  · exact Or.inl hd
  · exact Or.inr (applyEv_file_to_mem cfg s e h1 hd h2)

/-- Counterexample for C4 as stated: `deinitialize` returns the mode from
`IN_FILE_MODE` to `IN_MEMORY_MODE` even though `autoTruncateFile` is disabled
and the queue still holds an undelivered buffer. -/
theorem fbc_mode_return_via_deinit :
    sInFile.mode = Mode.IN_FILE_MODE ∧ cfgA.autoTruncateFile = false
    ∧ sInFile.nbuffers = 1
    ∧ (applyEv cfgA sInFile Ev.deinit).mode = Mode.IN_MEMORY_MODE := by
  exact ⟨rfl, rfl, rfl, rfl⟩

/-- Witness for C4 (corrected). -/
theorem fbc_mode_monotonic_amended_witness :
    sInFile.mode = Mode.IN_FILE_MODE
    ∧ (applyEv cfgA sInFile Ev.deinit).mode = Mode.IN_MEMORY_MODE
    ∧ (Ev.deinit = Ev.deinit ∨
        (cfgA.autoTruncateFile = true ∧
         ∃ s' i', s'.mode = Mode.IN_FILE_MODE ∧ s'.inFileMode = some i'
           ∧ findBufferForReadProcessing s' i'.written = none
           ∧ i'.written ≤ 0
           ∧ applyEv cfgA sInFile Ev.deinit =
               switchToInMemoryMode { s' with readerState := ReaderState.RS_INACTIVE })) :=
  ⟨rfl, rfl, fbc_mode_monotonic_amended cfgA sInFile Ev.deinit rfl rfl⟩

/-! ### Preservation of the global invariants (C5) -/

/-- Helper: further projections of `popBuffer`. -/
theorem popBuffer_errcode (s : St) : (popBuffer s).errcode = s.errcode := by
  obtain ⟨nb, bb, fb, mb, hp⟩ := popBuffer_shape s
  rw [hp]

/-- Helper: `popBuffer` leaves the `InFileMode` slot alone. -/
theorem popBuffer_inFileMode (s : St) : (popBuffer s).inFileMode = s.inFileMode := by
  obtain ⟨nb, bb, fb, mb, hp⟩ := popBuffer_shape s
  rw [hp]

/-- Helper: `popBuffer` leaves the reader state alone. -/
theorem popBuffer_readerState (s : St) : (popBuffer s).readerState = s.readerState := by
  obtain ⟨nb, bb, fb, mb, hp⟩ := popBuffer_shape s
  rw [hp]

/-- Helper: further projections of `pushBuffer`. -/
theorem pushBuffer_errcode (s : St) (b : Buf) : (pushBuffer s b).errcode = s.errcode := by
  obtain ⟨nb, bb, fb, mb, hp⟩ := pushBuffer_shape s b
  rw [hp]

/-- Helper: `pushBuffer` leaves the `InFileMode` slot alone. -/
theorem pushBuffer_inFileMode (s : St) (b : Buf) :
    (pushBuffer s b).inFileMode = s.inFileMode := by
  obtain ⟨nb, bb, fb, mb, hp⟩ := pushBuffer_shape s b
  rw [hp]

/-- Helper: `pushBuffer` leaves the reader state alone. -/
theorem pushBuffer_readerState (s : St) (b : Buf) :
    (pushBuffer s b).readerState = s.readerState := by
  obtain ⟨nb, bb, fb, mb, hp⟩ := pushBuffer_shape s b
  rw [hp]

/-- Helper: the invariants only look at four fields. -/
theorem inv_core (s s' : St) (hmo : s'.mode = s.mode) (hec : s'.errcode = s.errcode)
    (hifm : s'.inFileMode = s.inFileMode) (hrs : s'.readerState = s.readerState)
    (h : Inv s) : Inv s' := by
  unfold Inv at h ⊢
  rw [hmo, hec, hifm, hrs]
  exact h

/-- Helper: in a non-error mode the reader-state clause is vacuous. -/
theorem inv_core_nonerr (s s' : St) (hmo : s'.mode = s.mode)
    (hec : s'.errcode = s.errcode) (hifm : s'.inFileMode = s.inFileMode)
    (hge : s.mode.geError = false) (h : Inv s) : Inv s' := by
  unfold Inv at h ⊢
  rw [hmo, hec, hifm]
  exact ⟨h.1, h.2.1, fun hx => absurd hx (by simp [hge])⟩

/-- Helper: building the invariants for an in-file-mode state. -/
theorem inv_mk_file (s' : St) (hmo : s'.mode = Mode.IN_FILE_MODE)
    (hec : s'.errcode = 0) (hifm : ∃ j, s'.inFileMode = some j) : Inv s' := by
  obtain ⟨j, hj⟩ := hifm
  refine ⟨?_, ?_, ?_⟩
  · rw [hec, hmo]; simp
  · rw [hj, hmo]; simp
  · rw [hmo]; intro hx; exact absurd hx (by decide)

/-- Helper: building the invariants for an in-memory-mode state. -/
theorem inv_mk_mem (s' : St) (hmo : s'.mode = Mode.IN_MEMORY_MODE)
    (hec : s'.errcode = 0) (hifm : s'.inFileMode = none) : Inv s' := by
  refine ⟨?_, ?_, ?_⟩
  · rw [hec, hmo]; simp
  · rw [hifm, hmo]; simp
  · rw [hmo]; intro hx; exact absurd hx (by decide)

/-- Helper: terminating the reader preserves the invariants. -/
theorem inv_terminate (s : St) (h : Inv s) : Inv (terminateReaderBecauseOfEOF s) :=
  ⟨h.1, h.2.1, fun hx => ⟨rfl, (h.2.2 hx).2⟩⟩

/-- Helper: `setError` with a nonzero code establishes the invariants. -/
theorem setError_inv (e : Int) (s : St) (he : e ≠ 0) (h : Inv s) :
    Inv (setError e s) := by
  by_cases hg : s.mode.geError = true
  · rw [setError_of_geError e s hg]; exact h
  · rw [Bool.not_eq_true] at hg
    unfold setError
    rw [hg]
    simp only [Bool.false_eq_true, if_false]
    split_ifs with hacc hacc2
    all_goals exact ⟨by simp [he], by simp, fun _ => ⟨rfl, rfl⟩⟩

/-- Helper: `moveNextBufferToFile` preserves the invariants. -/
theorem moveNext_inv (s : St) (h : Inv s) : Inv (moveNextBufferToFile s) := by
  unfold moveNextBufferToFile
  cases hi : s.inFileMode with
  | none => exact h
  | some i =>
    have hmo : s.mode = Mode.IN_FILE_MODE := h.2.1.mp (by rw [hi]; rfl)
    have hec : s.errcode = 0 := h.1.mpr (Or.inr hmo)
    dsimp only
    split_ifs with h1 h2
    · exact inv_mk_file _ hmo hec ⟨_, rfl⟩
    · exact inv_mk_file _ hmo hec ⟨_, rfl⟩
    · exact inv_mk_file _ hmo hec ⟨_, rfl⟩

/-- Helper: issuing a file read preserves the invariants. -/
theorem readNextChunk_inv (cfg : Cfg) (s : St) (h : Inv s) :
    Inv (readNextChunkFromFile cfg s) := by
  unfold readNextChunkFromFile
  cases hi : s.inFileMode with
  | none => exact h
  | some i =>
    have hmo : s.mode = Mode.IN_FILE_MODE := h.2.1.mp (by rw [hi]; rfl)
    have hec : s.errcode = 0 := h.1.mpr (Or.inr hmo)
    exact inv_mk_file _ hmo hec ⟨_, rfl⟩

/-- Helper: dropping back to the in-memory mode (auto truncation) establishes
the invariants. -/
theorem switchToInMemoryMode_inv (s : St) (hec : s.errcode = 0) :
    Inv (switchToInMemoryMode s) := by
  obtain ⟨o, ho⟩ := cancelWriter_shape s
  unfold switchToInMemoryMode clearBuffers
  rw [ho]
  exact inv_mk_mem _ rfl hec rfl

/-- Helper: switching to the in-file mode establishes the invariants. -/
theorem switchToInFileMode_inv (s : St) (hec : s.errcode = 0) :
    Inv (switchToInFileMode s) := by
  unfold switchToInFileMode createBufferFile withIFM
  exact inv_mk_file _ rfl hec ⟨_, rfl⟩

/-- Helper: the reader's no-more-buffers epilogue preserves the invariants. -/
theorem autoTruncAfter_inv (cfg : Cfg) (s : St) (hec : s.errcode = 0)
    (h : Inv s) : Inv (autoTruncAfter cfg s) := by
  unfold autoTruncAfter
  split_ifs with h1
  · exact switchToInMemoryMode_inv s hec
  · exact h

/-- Helper: the reader loop preserves the invariants. -/
theorem readNextFuel_inv (cfg : Cfg) :
    ∀ (fuel : Nat) (resps : List ConsumerResp) (s : St),
      Inv s → Inv (readNextFuel cfg fuel resps s) := by
  intro fuel
  induction fuel with
  | zero => intro resps s h; exact h
  | succ n ih =>
    intro resps s h
    rw [readNextFuel]
    cases hm : s.mode with
    | IN_MEMORY_MODE =>
      have hge : s.mode.geError = false := by rw [hm]; rfl
      dsimp only
      split_ifs with h1 h2 h3 h4
      · exact inv_core_nonerr s _ hm.symm rfl rfl hge h
      · exact inv_terminate _ (inv_core_nonerr s _ hm.symm rfl rfl hge h)
      · exact ih _ _ (inv_core_nonerr s _ (popBuffer_mode s) (popBuffer_errcode s)
          (popBuffer_inFileMode s) hge h)
      · exact inv_core_nonerr s _ (popBuffer_mode s) (popBuffer_errcode s)
          (popBuffer_inFileMode s) hge h
      · exact inv_terminate _ (inv_core_nonerr s _ (popBuffer_mode s)
          (popBuffer_errcode s) (popBuffer_inFileMode s) hge h)
    | IN_FILE_MODE =>
      have hec : s.errcode = 0 := h.1.mpr (Or.inr hm)
      cases hi : s.inFileMode with
      | none => exact h
      | some i =>
        dsimp only
        split_ifs with h1
        · exact readNextChunk_inv cfg s h
        all_goals
          cases hfb : findBufferForReadProcessing s i.written with
          | none =>
            exact autoTruncAfter_inv cfg _ hec (inv_mk_file _ rfl hec ⟨i, rfl⟩)
          | some b =>
            dsimp only
            split_ifs with h5 h6 h7
            · exact inv_terminate _ (inv_mk_file _ rfl hec ⟨i, rfl⟩)
            · exact ih _ _ (inv_mk_file _ rfl hec ⟨_, rfl⟩)
            · exact inv_mk_file _ rfl hec ⟨_, rfl⟩
            · exact inv_terminate _ (inv_mk_file _ rfl hec ⟨_, rfl⟩)
    | ERROR => exact h
    | ERROR_WAITING => exact h

/-- Helper: the mode after `switchToInFileMode`. -/
theorem switchToInFileMode_mode (s : St) :
    (switchToInFileMode s).mode = Mode.IN_FILE_MODE := by
  unfold switchToInFileMode
  rw [createBufferFile_mode]

/-- Helper: `feed` preserves the invariants. -/
theorem feed_inv (cfg : Cfg) (buffer : Buf) (resps : List ConsumerResp) (s : St)
    (h : Inv s) : Inv (feedWithoutRefGuard cfg buffer resps s) := by
  unfold feedWithoutRefGuard
  by_cases h1 : ended s = true
  · rw [if_pos h1]; exact h
  · rw [if_neg h1]
    have hge : s.mode.geError = false := by
      by_contra hx
      rw [Bool.not_eq_false] at hx
      exact h1 (ended_of_geError s hx)
    have hpush : Inv (pushBuffer s buffer) :=
      inv_core s _ (pushBuffer_mode s buffer) (pushBuffer_errcode s buffer)
        (pushBuffer_inFileMode s buffer) (pushBuffer_readerState s buffer) h
    dsimp only
    split_ifs with hA h2 h3 h4 h5 h6 h7 h8 h9 <;>
      first
        | (refine readNextFuel_inv cfg _ _ _ (switchToInFileMode_inv _ ?_)
           exact (pushBuffer_errcode s buffer).trans
             (h.1.mpr (Or.inl ((pushBuffer_mode s buffer).symm.trans hA.1))))
        | (refine inv_core_nonerr (switchToInFileMode (pushBuffer s buffer)) _ rfl rfl rfl
             (by rw [switchToInFileMode_mode]; rfl) (switchToInFileMode_inv _ ?_)
           exact (pushBuffer_errcode s buffer).trans
             (h.1.mpr (Or.inl ((pushBuffer_mode s buffer).symm.trans hA.1))))
        | (refine switchToInFileMode_inv _ ?_
           exact (pushBuffer_errcode s buffer).trans
             (h.1.mpr (Or.inl ((pushBuffer_mode s buffer).symm.trans hA.1))))
        | exact readNextFuel_inv cfg _ _ _ (moveNext_inv _ hpush)
        | exact inv_core_nonerr (moveNextBufferToFile (pushBuffer s buffer)) _ rfl rfl rfl
            (by rw [moveNext_mode, pushBuffer_mode]; exact hge) (moveNext_inv _ hpush)
        | exact moveNext_inv _ hpush
        | exact readNextFuel_inv cfg _ _ _ hpush
        | exact inv_core_nonerr (pushBuffer s buffer) _ rfl rfl rfl
            (by rw [pushBuffer_mode]; exact hge) hpush
        | exact hpush

/-- Helper: the consumed subscription preserves the invariants. -/
theorem onChannelConsumed_inv (cfg : Cfg) (resps : List ConsumerResp) (s : St)
    (h : Inv s) : Inv (onChannelConsumed cfg resps s) := by
  unfold onChannelConsumed feedErrorWhenChannelIdleOrEnded
  split_ifs with h1 h2 h3 h4
  all_goals first
    | exact readNextFuel_inv cfg _ _ s h
    | exact inv_terminate s h
    | exact inv_core s _ rfl rfl rfl rfl h
    | exact h

/-- Helper: the file-creation completion preserves the invariants. -/
theorem bufferFileCreated_inv (r e : Int) (s : St) (h : Inv s)
    (he : 0 ≤ r ∨ e ≠ 0) : Inv (bufferFileCreated r e s) := by
  unfold bufferFileCreated
  cases hi : s.inFileMode with
  | none => exact h
  | some i =>
    have hmo : s.mode = Mode.IN_FILE_MODE := h.2.1.mp (by rw [hi]; rfl)
    have hec : s.errcode = 0 := h.1.mpr (Or.inr hmo)
    dsimp only
    split_ifs with h1 h2
    · exact moveNext_inv _ (inv_mk_file _ hmo hec ⟨_, rfl⟩)
    · exact inv_mk_file _ hmo hec ⟨_, rfl⟩
    · exact setError_inv e _ (he.resolve_left h1) (inv_mk_file _ hmo hec ⟨_, rfl⟩)

/-- Helper: the write completion preserves the invariants. -/
theorem bufferWrittenToFile_inv (r e : Int) (b : Buf) (w : Nat) (off : Int)
    (s : St) (h : Inv s) (he : 0 ≤ r ∨ e ≠ 0) :
    Inv (bufferWrittenToFile r e b w off s) := by
  unfold bufferWrittenToFile
  cases hi : s.inFileMode with
  | none => exact h
  | some i =>
    have hmo : s.mode = Mode.IN_FILE_MODE := h.2.1.mp (by rw [hi]; rfl)
    have hec : s.errcode = 0 := h.1.mpr (Or.inr hmo)
    dsimp only
    split_ifs with h1 h2
    · exact moveNext_inv _ (inv_core _ _ (popBuffer_mode _) (popBuffer_errcode _)
        (popBuffer_inFileMode _) (popBuffer_readerState _)
        (inv_mk_file _ hmo hec ⟨_, rfl⟩))
    · exact inv_mk_file _ hmo hec ⟨_, rfl⟩
    · exact setError_inv e _ (he.resolve_left h1) (inv_mk_file _ hmo hec ⟨_, rfl⟩)

/-- Helper: the read completion preserves the invariants. -/
theorem nextChunkDoneReading_inv (cfg : Cfg) (r e : Int)
    (resps : List ConsumerResp) (s : St) (h : Inv s) (he : 0 ≤ r ∨ e ≠ 0) :
    Inv (nextChunkDoneReading cfg r e resps s) := by
  unfold nextChunkDoneReading
  cases hi : s.inFileMode with
  | none => exact h
  | some i =>
    have hmo : s.mode = Mode.IN_FILE_MODE := h.2.1.mp (by rw [hi]; rfl)
    have hec : s.errcode = 0 := h.1.mpr (Or.inr hmo)
    dsimp only
    cases hr : i.readRequest with
    | none => exact h
    | some req =>
      dsimp only
      split_ifs with h1 h2 h3
      · exact readNextFuel_inv cfg _ _ _ (inv_mk_file _ hmo hec ⟨_, rfl⟩)
      · exact inv_mk_file _ hmo hec ⟨_, rfl⟩
      · exact inv_terminate _ (inv_mk_file _ hmo hec ⟨_, rfl⟩)
      · exact setError_inv e _ (he.resolve_left h1) (inv_mk_file _ hmo hec ⟨_, rfl⟩)

/-- Helper: every event preserves the invariants. -/
theorem applyEv_inv (cfg : Cfg) (s : St) (e : Ev) (h : Inv s)
    (he : EvOK e = true) : Inv (applyEv cfg s e) := by
  cases e with
  | feed buffer resps => exact feed_inv cfg buffer resps s h
  | feedErr e2 =>
    have he2 : e2 ≠ 0 := by simpa [EvOK] using he
    exact setError_inv e2 s he2 h
  | reinit => exact inv_core s _ rfl rfl rfl rfl h
  | deinit =>
    rw [show applyEv cfg s Ev.deinit = deinitializeChannel s from rfl,
      deinitializeChannel_eq]
    exact inv_mk_mem _ rfl rfl rfl
  | chConsumed ns resps =>
    dsimp only [applyEv]
    split_ifs with h1
    · exact onChannelConsumed_inv cfg resps _ (inv_core s _ rfl rfl rfl rfl h)
    · exact h
  | fileCreated r err =>
    dsimp only [applyEv]
    cases hi : s.inFileMode with
    | none => exact h
    | some i =>
      dsimp only
      split_ifs with h1
      · exact bufferFileCreated_inv r err s h (h1.2.2.imp (fun x => x) And.right)
      · exact h
  | writeComplete r err =>
    dsimp only [applyEv]
    cases hi : s.inFileMode with
    | none => exact h
    | some i =>
      dsimp only
      cases hw : i.writerRequest with
      | none => exact h
      | some wr =>
        cases wr with
        | creating => exact h
        | moving b w off =>
          dsimp only
          split_ifs with h1
          · exact bufferWrittenToFile_inv r err b w off s h
              (h1.2.2.imp And.left And.right)
          · exact h
  | readComplete r err resps =>
    dsimp only [applyEv]
    cases hi : s.inFileMode with
    | none => exact h
    | some i =>
      dsimp only
      cases hr : i.readRequest with
      | none => exact h
      | some req =>
        dsimp only
        split_ifs with h1
        · exact nextChunkDoneReading_inv cfg r err resps s h
            (h1.2.imp And.left And.right)
        · exact h

/-- C5: after any sequence of public entry points and asynchronous completion
handlers (with nonzero error codes), the global invariants hold:
`errcode == 0` iff the mode is `IN_MEMORY_MODE` or `IN_FILE_MODE`; the
`InFileMode` record exists iff the mode is `IN_FILE_MODE`; and the error
modes imply a terminated reader and no `InFileMode` record. -/
theorem fbc_global_invariants (cfg : Cfg) (evs : List Ev)
    (hok : evs.all EvOK = true) : Inv (run cfg initSt evs) := by
  have main : ∀ (l : List Ev) (s : St), l.all EvOK = true → Inv s →
      Inv (run cfg s l) := by
    intro l
    induction l with
    | nil => intro s _ hs; exact hs
    | cons e rest ih =>
      intro s hok2 hs
      rw [List.all_cons, Bool.and_eq_true] at hok2
      exact ih (applyEv cfg s e) hok2.2 (applyEv_inv cfg s e hs hok2.1)
  exact main evs initSt hok inv_initSt

/-- Witness for C5 on a concrete trace that feeds a buffer and then a public
error. -/
theorem fbc_global_invariants_witness :
    evsC5.all EvOK = true ∧ Inv (run cfgA initSt evsC5) :=
  ⟨by decide, fbc_global_invariants cfgA evsC5 (by decide)⟩

/-! ### Order preservation under an always-accepting consumer (C1) -/

/-- Helper: pushing extends the queue on the right. -/
theorem queueOf_push (s : St) (b : Buf) (hWF : queueWF s) :
    queueOf (pushBuffer s b) = queueOf s ++ [b] := by
  unfold queueOf pushBuffer
  by_cases h0 : s.nbuffers = 0
  · obtain ⟨hf, hm⟩ := hWF.1 h0
    simp [h0, hf, hm]
  · simp [h0, queueOf]

/-- Helper: pushing preserves wellformedness of the queue. -/
theorem queueWF_push (s : St) (b : Buf) (hWF : queueWF s) :
    queueWF (pushBuffer s b) := by
  obtain ⟨hWF1, hWF2, hWF3⟩ := hWF
  have hq := queueOf_push s b ⟨hWF1, hWF2, hWF3⟩
  unfold pushBuffer at *
  by_cases h0 : s.nbuffers = 0
  · obtain ⟨hf, hm⟩ := hWF1 h0
    refine ⟨by simp [h0], by simp [h0, hm], ?_⟩
    rw [if_pos h0] at hq ⊢
    rw [hq, hWF3, sumB_append]
    simp [sumB]
  · refine ⟨by simp [h0], ?_, ?_⟩
    · rw [if_neg h0]
      intro _
      dsimp only
      rw [List.length_append, hWF2 h0]
      simp
    · rw [if_neg h0] at hq ⊢
      rw [hq, hWF3, sumB_append]
      simp [sumB]

/-- Helper: pushing adds the buffer's size to `bytesBuffered`. -/
theorem pushBuffer_bytes (s : St) (b : Buf) :
    (pushBuffer s b).bytesBuffered = s.bytesBuffered + b.length := by
  unfold pushBuffer
  split_ifs <;> rfl

/-- Helper: pushing leaves the lower channel alone. -/
theorem pushBuffer_lower (s : St) (b : Buf) : (pushBuffer s b).lower = s.lower := by
  obtain ⟨nb, bb, fb, mb, hp⟩ := pushBuffer_shape s b
  rw [hp]

/-- Helper: popping a wellformed nonempty queue drops its head. -/
theorem queueWF_pop (s : St) (hWF : queueWF s) (h0 : s.nbuffers ≠ 0) :
    queueWF (popBuffer s) ∧ queueOf (popBuffer s) = (queueOf s).tail
    ∧ (popBuffer s).bytesBuffered = s.bytesBuffered - s.firstBuffer.length := by
  obtain ⟨mo, rs, nb, ec, bb, fb, mb, ifm, lo, ge⟩ := s
  obtain ⟨hWF1, hWF2, hWF3⟩ := hWF
  try dsimp only at h0 hWF1 hWF2 hWF3 ⊢
  have hnb := hWF2 h0
  try dsimp only at hnb
  rw [queueOf, if_neg h0] at hWF3
  try dsimp only at hWF3
  cases mb with
  | nil =>
    have h1 : nb = 1 := by simpa using hnb
    subst h1
    rw [sumB_cons] at hWF3
    unfold popBuffer queueOf
    dsimp only
    refine ⟨⟨fun _ => ⟨rfl, rfl⟩, fun hx => absurd rfl hx, ?_⟩, by simp [queueOf], rfl⟩
    show bb - fb.length = sumB []
    simp only [sumB, List.map_nil, List.sum_nil]
    simp only [sumB, List.map_nil, List.sum_nil] at hWF3
    omega
  | cons c rest =>
    have h2 : nb = rest.length + 2 := by simpa using hnb
    rw [sumB_cons] at hWF3
    unfold popBuffer queueOf
    dsimp only
    have h3 : ¬(nb - 1 = 0) := by omega
    refine ⟨⟨fun hx => absurd hx h3,
      fun _ => (by show nb - 1 = rest.length + 1; omega), ?_⟩, ?_, rfl⟩
    · rw [queueOf]
      dsimp only
      rw [if_neg h3]
      show bb - fb.length = sumB (c :: rest)
      omega
    · rw [if_neg h3, if_neg h0]
      rfl

/-- Helper: a fully served queue yields no buffer for read processing. -/
theorem findBuffer_drained (s : St) (written : Int) (P : List Buf)
    (hq : queueOf s = P) (hWF : queueWF s) (hne : ∀ b ∈ P, b ≠ [])
    (hw : written = -(sumB P : Int)) :
    findBufferForReadProcessing s written = none := by
  unfold findBufferForReadProcessing
  by_cases h0 : s.nbuffers = 0
  · rw [if_pos h0]
  · rw [if_neg h0]
    rw [queueOf, if_neg h0] at hq
    subst hq
    have hf : s.firstBuffer ≠ [] := hne _ (List.mem_cons_self _ _)
    have hflen : 1 ≤ s.firstBuffer.length := by
      cases hfb : s.firstBuffer with
      | nil => exact absurd hfb hf
      | cons x xs => simp [hfb]
    rw [sumB_cons] at hw
    have htar : ¬((0 : Int) = -written) := by
      rw [hw]; push_cast
      have : (0 : Int) ≤ (sumB s.moreBuffers : Int) := Int.natCast_nonneg _
      omega
    rw [if_neg htar]
    exact fbrpLoop_none _ _ _ (fun x hx => hne x (List.mem_cons_of_mem _ hx))
      (by rw [hw]; push_cast; omega)

/-- Helper: the read-processing walk finds the first unserved buffer: the one
after the served prefix `P`. -/
theorem findBuffer_found (s : St) (written : Int) (P Q' : List Buf) (q : Buf)
    (hq : queueOf s = P ++ q :: Q') (hWF : queueWF s) (hne : ∀ b ∈ P, b ≠ [])
    (hw : written = -(sumB P : Int)) :
    findBufferForReadProcessing s written = some q := by
  have h0 : s.nbuffers ≠ 0 := by
    intro hx
    rw [queueOf, if_pos hx] at hq
    exact absurd hq.symm (by simp)
  rw [queueOf, if_neg h0] at hq
  unfold findBufferForReadProcessing
  rw [if_neg h0]
  cases P with
  | nil =>
    simp only [List.nil_append, List.cons.injEq] at hq
    obtain ⟨hfq, hmq⟩ := hq
    have hw0 : written = 0 := by rw [hw]; simp [sumB]
    rw [if_pos (by rw [hw0, neg_zero])]
    rw [hfq]
  | cons p0 P' =>
    simp only [List.cons_append, List.cons.injEq] at hq
    obtain ⟨hf, hmore⟩ := hq
    have hfne : p0 ≠ [] := hne p0 (List.mem_cons_self _ _)
    have hflen : 1 ≤ p0.length := by
      cases hfb : p0 with
      | nil => exact absurd hfb hfne
      | cons x xs => simp [hfb]
    have hPne : ∀ b ∈ P', b ≠ [] := fun b hb => hne b (List.mem_cons_of_mem _ hb)
    rw [sumB_cons] at hw
    have htar : ¬((0 : Int) = -written) := by
      rw [hw]; push_cast
      have : (0 : Int) ≤ (sumB P' : Int) := Int.natCast_nonneg _
      omega
    rw [if_neg htar, hmore, hf,
      fbrpLoop_skip (-written) P' (q :: Q') ((p0.length : Nat) : Int) hPne
        (by rw [hw]; push_cast; omega)]
    rw [fbrpLoop, if_pos (Or.inl (by rw [hw]; push_cast; ring))]

/-- Helper: `getLastD` of a list is in the list prefixed by the fallback. -/
theorem getLastD_mem_cons : ∀ (l : List Buf) (a : Buf), l.getLastD a ∈ a :: l := by
  intro l
  induction l with
  | nil => intro a; simp [List.getLastD]
  | cons b t ih =>
    intro a
    rw [List.getLastD_cons]
    exact List.mem_cons_of_mem a (ih b)

/-- Helper: `getLastD` of a nonempty list is in the list. -/
theorem getLastD_mem (l : List Buf) (d : Buf) (h : l ≠ []) : l.getLastD d ∈ l := by
  cases l with
  | nil => exact absurd rfl h
  | cons b t =>
    rw [List.getLastD_cons]
    exact getLastD_mem_cons t b

/-- Helper: the last buffer of a wellformed nonempty queue is in the queue. -/
theorem peekLast_mem (s : St) (hWF : queueWF s) (h0 : s.nbuffers ≠ 0) :
    peekLastBuffer s ∈ queueOf s := by
  unfold peekLastBuffer queueOf
  rw [if_neg h0]
  have hnb := hWF.2.1 h0
  by_cases h1 : s.nbuffers ≤ 1
  · rw [if_pos h1]
    exact List.mem_cons_self _ _
  · rw [if_neg h1]
    have hm : s.moreBuffers ≠ [] := by
      intro hx
      rw [hx] at hnb
      simp at hnb
      omega
    exact List.mem_cons_of_mem _ (getLastD_mem _ _ hm)

/-- Helper: an always-accepting-run state is never `ended()`. -/
theorem AAInv_not_ended (cfg : Cfg) (s : St) (h : AAInv cfg s) : ended s = false := by
  obtain ⟨hec, hidle, heof, hrs, hWF, hne, hmode⟩ := h
  unfold ended
  have hge : s.mode.geError = false := by
    rcases hmode with ⟨hm, _⟩ | ⟨hm, _⟩ <;> rw [hm] <;> rfl
  have hch : s.lower.chEnded = false := by
    unfold LowerChannel.chEnded
    rw [hidle]
  have hfirst : (hasBuffers s && decide (peekLastBuffer s = [])) = false := by
    by_cases h0 : s.nbuffers = 0
    · simp [hasBuffers, h0]
    · have hmem : peekLastBuffer s ∈ queueOf s := peekLast_mem s hWF h0
      simp [hne _ hmem]
  rw [hfirst, hge, hch]
  rfl

/-- Helper: feeding a data buffer to an always-accepting consumer. -/
theorem chanFeed_accept (c : LowerChannel) (q : Buf) (h : q ≠ []) :
    chanFeed c q ConsumerResp.accept =
      { c with fed := c.fed ++ [q], state := ChState.IDLE } := by
  simp [chanFeed, h]

/-- Helper: the reader drains a single freshly pushed buffer in the in-memory
mode. -/
theorem drain_mem (cfg : Cfg) (s : St) (b : Buf) (fuel : Nat)
    (hm : s.mode = Mode.IN_MEMORY_MODE) (hidle : s.lower.state = ChState.IDLE)
    (hq1 : s.nbuffers = 1) (hq2 : s.firstBuffer = b) (hq3 : s.moreBuffers = [])
    (hb : b ≠ []) (hbytes : s.bytesBuffered = b.length) (hfuel : 2 ≤ fuel) :
    readNextFuel cfg fuel [] s =
      { s with readerState := ReaderState.RS_INACTIVE, nbuffers := 0,
               bytesBuffered := 0, firstBuffer := [],
               lower := { s.lower with fed := s.lower.fed ++ [b],
                                       state := ChState.IDLE } } := by
  obtain ⟨f, rfl⟩ : ∃ f, fuel = f + 2 := ⟨fuel - 2, by omega⟩
  obtain ⟨mo, rs, nb, ec, bb, fb, mb, ifm, lo, ge⟩ := s
  dsimp only at hm hidle hq1 hq2 hq3 hbytes ⊢
  subst hm hq1 hq2 hq3 hbytes
  rw [readNextFuel]
  dsimp only
  rw [if_neg one_ne_zero, if_neg hb]
  dsimp only [popBuffer, headResp]
  rw [chanFeed_accept _ _ hb]
  dsimp only [LowerChannel.acceptingInput]
  rw [if_pos rfl]
  rw [readNextFuel]
  dsimp only [tailResps]
  rw [if_pos rfl]
  simp [Nat.sub_self]

/-- Helper: in the in-file mode with an idle channel and an always-accepting
consumer, the reader serves the whole unserved queue suffix `Q` straight from
memory (advancing `readOffset`/`written` past it) and then goes inactive,
auto-truncating if configured. -/
theorem drain_file (cfg : Cfg) :
    ∀ (Q : List Buf) (fuel : Nat) (P : List Buf) (s : St) (i : InFileMode),
      s.mode = Mode.IN_FILE_MODE →
      s.inFileMode = some i →
      s.lower.state = ChState.IDLE →
      queueWF s →
      (∀ b ∈ queueOf s, b ≠ []) →
      queueOf s = P ++ Q →
      i.written = -(sumB P : Int) →
      Q.length < fuel →
      readNextFuel cfg fuel [] s =
        autoTruncAfter cfg
          { s with readerState := ReaderState.RS_INACTIVE,
                   inFileMode := some { i with
                     readOffset := i.readOffset + (sumB Q : Int),
                     written := i.written - (sumB Q : Int) },
                   lower := { s.lower with fed := s.lower.fed ++ Q } } := by
  intro Q
  induction Q with
  | nil =>
    intro fuel P s i hm hi hidle hWF hne hq hw hfuel
    obtain ⟨f, rfl⟩ : ∃ f, fuel = f + 1 := ⟨fuel - 1, by omega⟩
    rw [readNextFuel, hm]
    dsimp only
    rw [hi]
    dsimp only
    have hnpos : ¬(0 < i.written) := by
      rw [hw]
      have h0 : (0 : Int) ≤ (sumB P : Int) := Int.natCast_nonneg _
      omega
    rw [if_neg hnpos]
    rw [findBuffer_drained s i.written P (by rw [hq, List.append_nil]) hWF
      (fun b hb => hne b (by rw [hq, List.append_nil]; exact hb)) hw]
    dsimp only
    refine congrArg (autoTruncAfter cfg) ?_
    obtain ⟨ifd, irr, iws, iwr, iro, iw, ifl⟩ := i
    simp [St.mk.injEq, hi, sumB]
  | cons q Q' ih =>
    intro fuel P s i hm hi hidle hWF hne hq hw hfuel
    obtain ⟨f, rfl⟩ : ∃ f, fuel = f + 1 := ⟨fuel - 1, by omega⟩
    have hqne : q ≠ [] :=
      hne q (by rw [hq]; exact List.mem_append.mpr (Or.inr (List.mem_cons_self _ _)))
    have hnpos : ¬(0 < i.written) := by
      rw [hw]
      have h0 : (0 : Int) ≤ (sumB P : Int) := Int.natCast_nonneg _
      omega
    have hfind := findBuffer_found s i.written P Q' q hq hWF
      (fun b hb => hne b (by rw [hq]; exact List.mem_append.mpr (Or.inl hb))) hw
    have hsq : sumB [q] = q.length := by simp [sumB]
    obtain ⟨mo, rs, nb, ec, bb, fb, mb, ifm, lo, ge⟩ := s
    obtain ⟨ifd, irr, iws, iwr, iro, iw, ifl⟩ := i
    obtain ⟨lst, lfed, leof, lerr⟩ := lo
    dsimp only at hm hi hidle hfind hnpos hq hw hWF hne ⊢
    subst hm hi hidle
    rw [readNextFuel]
    dsimp only
    rw [if_neg hnpos]
    rw [hfind]
    dsimp only
    rw [if_neg hqne]
    dsimp only [headResp]
    rw [chanFeed_accept _ _ hqne]
    dsimp only [LowerChannel.acceptingInput]
    rw [if_pos rfl]
    dsimp only [tailResps]
    have hrec := ih f (P ++ [q])
      { mode := Mode.IN_FILE_MODE
        readerState := ReaderState.RS_FEEDING
        nbuffers := nb
        errcode := ec
        bytesBuffered := bb
        firstBuffer := fb
        moreBuffers := mb
        inFileMode := some
          { fd := ifd
            readRequest := irr
            writerState := iws
            writerRequest := iwr
            readOffset := iro + (q.length : Int)
            written := iw - (q.length : Int)
            file := ifl }
        lower :=
          { state := ChState.IDLE
            fed := lfed ++ [q]
            eofFed := leof
            errorsFed := lerr }
        generation := ge }
      { fd := ifd
        readRequest := irr
        writerState := iws
        writerRequest := iwr
        readOffset := iro + (q.length : Int)
        written := iw - (q.length : Int)
        file := ifl }
      rfl rfl rfl hWF hne
      (by refine hq.trans ?_; simp)
      (by show iw - (q.length : Int) = -(sumB (P ++ [q]) : Int)
          rw [hw, sumB_append, hsq]
          push_cast
          ring)
      (by simp only [List.length_cons] at hfuel; omega)
    refine hrec.trans ?_
    refine congrArg (autoTruncAfter cfg) ?_
    simp [St.mk.injEq, InFileMode.mk.injEq, LowerChannel.mk.injEq, sumB_cons]
    push_cast
    constructor <;> ring

/-- Helper: the reader's epilogue leaves the lower channel alone. -/
theorem autoTruncAfter_lower (cfg : Cfg) (s : St) :
    (autoTruncAfter cfg s).lower = s.lower := by
  unfold autoTruncAfter
  split_ifs with h1
  · unfold switchToInMemoryMode clearBuffers
    obtain ⟨o, ho⟩ := cancelWriter_shape s
    rw [ho]
  · rfl

/-- Helper: the reader's epilogue preserves the always-accepting-run
invariant (truncation lands in the in-memory branch). -/
theorem autoTruncAfter_AA (cfg : Cfg) (X : St) (h : AAInv cfg X) :
    AAInv cfg (autoTruncAfter cfg X) := by
  obtain ⟨hec, hidle, heof, hrs, hWF, hne, hor⟩ := h
  unfold autoTruncAfter
  split_ifs with h1
  · unfold switchToInMemoryMode clearBuffers
    obtain ⟨o, ho⟩ := cancelWriter_shape X
    rw [ho]
    refine ⟨hec, hidle, heof, hrs,
      ⟨fun _ => ⟨rfl, rfl⟩, fun hx => absurd rfl hx, rfl⟩, ?_,
      Or.inl ⟨rfl, rfl, rfl⟩⟩
    intro b hb
    rw [queueOf] at hb
    simp at hb
  · exact ⟨hec, hidle, heof, hrs, hWF, hne, hor⟩

/-- Helper: the fresh channel satisfies the always-accepting-run invariant. -/
theorem AAInv_initSt (cfg : Cfg) : AAInv cfg initSt := by
  refine ⟨rfl, rfl, rfl, rfl,
    ⟨fun _ => ⟨rfl, rfl⟩, fun hx => absurd rfl hx, rfl⟩, ?_,
    Or.inl ⟨rfl, rfl, rfl⟩⟩
  intro b hb
  rw [queueOf] at hb
  simp [initSt] at hb

/-- Helper: starting the mover on an empty queue parks the writer. -/
theorem moveNext_eq_inactive (s : St) (i : InFileMode) (hi : s.inFileMode = some i)
    (h0 : s.nbuffers = 0) :
    moveNextBufferToFile s =
      { s with inFileMode := some { i with writerState := WriterState.WS_INACTIVE } } := by
  unfold moveNextBufferToFile
  rw [hi]
  dsimp only
  rw [if_pos h0]

/-- Helper: starting the mover on a nonempty front buffer issues the move. -/
theorem moveNext_eq_moving (s : St) (i : InFileMode) (hi : s.inFileMode = some i)
    (h0 : s.nbuffers ≠ 0) (hf : s.firstBuffer ≠ []) :
    moveNextBufferToFile s =
      { s with inFileMode := some { i with
          writerState := WriterState.WS_MOVING,
          writerRequest := some
            (WriterReq.moving s.firstBuffer 0 (i.readOffset + i.written)) } } := by
  unfold moveNextBufferToFile
  rw [hi]
  dsimp only
  rw [if_neg h0, if_neg hf]

/-- Helper: the data buffers of a concatenated trace. -/
theorem dataFeedsOf_append (l1 l2 : List Ev) :
    dataFeedsOf (l1 ++ l2) = dataFeedsOf l1 ++ dataFeedsOf l2 := by
  unfold dataFeedsOf
  exact List.filterMap_append l1 l2 _

/-- Helper: running a concatenated trace. -/
theorem run_append (cfg : Cfg) (s : St) (l1 l2 : List Ev) :
    run cfg s (l1 ++ l2) = run cfg (run cfg s l1) l2 := by
  unfold run
  exact List.foldl_append _ _ l1 l2

/-- Helper: running one step of a trace. -/
theorem run_cons (cfg : Cfg) (s : St) (e : Ev) (evs : List Ev) :
    run cfg s (e :: evs) = run cfg (applyEv cfg s e) evs := rfl

/-- Helper: rewriting the `InFileMode` record when it exists. -/
theorem withIFM_eq (s : St) (i : InFileMode) (f : InFileMode → InFileMode)
    (hi : s.inFileMode = some i) :
    withIFM s f = { s with inFileMode := some (f i) } := by
  unfold withIFM
  rw [hi]

/-- Helper: popping leaves the lower channel alone. -/
theorem popBuffer_lower (s : St) : (popBuffer s).lower = s.lower := by
  obtain ⟨nb, bb, fb, mb, hp⟩ := popBuffer_shape s
  rw [hp]

/-- Helper: the front buffer of a nonempty queue is in the queue. -/
theorem firstBuffer_mem_queueOf (s : St) (h0 : s.nbuffers ≠ 0) :
    s.firstBuffer ∈ queueOf s := by
  rw [queueOf, if_neg h0]
  exact List.mem_cons_self _ _

/-- Helper: a successful (or EEXIST-retried) file-creation completion
preserves the always-accepting-run invariant and feeds nothing downstream. -/
theorem AA_fileCreated (cfg : Cfg) (s : St) (result err : Int)
    (h : AAInv cfg s)
    (hres : 0 ≤ result ∨ (result < 0 ∧ err = EEXIST)) :
    AAInv cfg (applyEv cfg s (Ev.fileCreated result err)) ∧
      (applyEv cfg s (Ev.fileCreated result err)).lower.fed = s.lower.fed := by
  obtain ⟨hec, hidle, heof, hrs, hWF, hne, hor⟩ := h
  unfold applyEv
  cases hi : s.inFileMode with
  | none => exact ⟨⟨hec, hidle, heof, hrs, hWF, hne, hor⟩, rfl⟩
  | some i =>
    dsimp only
    by_cases hg : i.writerRequest = some WriterReq.creating
        ∧ i.writerState = WriterState.WS_CREATING_FILE
        ∧ (0 ≤ result ∨ (result < 0 ∧ err ≠ 0))
    · rw [if_pos hg]
      obtain ⟨hreq, hws, _⟩ := hg
      rcases hor with ⟨hmem, hnb0, hifm⟩ | ⟨hfile, i', hifm, hw, hrr, hwWF⟩
      · rw [hi] at hifm
        exact absurd hifm (by simp)
      · rw [hi] at hifm
        injection hifm with hii
        subst hii
        unfold bufferFileCreated
        rw [hi]
        dsimp only
        rcases hres with hpos | ⟨hneg, heex⟩
        · rw [if_pos hpos]
          by_cases h0 : s.nbuffers = 0
          · rw [moveNext_eq_inactive
              { s with inFileMode := some { i with writerRequest := none, fd := result } }
              { i with writerRequest := none, fd := result } rfl h0]
            refine ⟨⟨hec, hidle, heof, hrs, hWF, hne,
              Or.inr ⟨hfile, _, rfl, hw, hrr, ?_⟩⟩, rfl⟩
            exact ⟨rfl, fun _ => h0⟩
          · have hf : s.firstBuffer ≠ [] := hne _ (firstBuffer_mem_queueOf s h0)
            rw [moveNext_eq_moving
              { s with inFileMode := some { i with writerRequest := none, fd := result } }
              { i with writerRequest := none, fd := result } rfl h0 hf]
            refine ⟨⟨hec, hidle, heof, hrs, hWF, hne,
              Or.inr ⟨hfile, _, rfl, hw, hrr, ?_⟩⟩, rfl⟩
            exact ⟨Nat.pos_of_ne_zero h0, hf, 0, _, rfl, List.length_pos.mpr hf⟩
        · rw [if_neg (by omega : ¬(0 ≤ result))]
          try dsimp only
          rw [if_pos heex]
          refine ⟨⟨hec, hidle, heof, hrs, hWF, hne,
            Or.inr ⟨hfile,
              { i with writerRequest := some WriterReq.creating,
                       writerState := WriterState.WS_CREATING_FILE },
              rfl, hw, hrr, rfl⟩⟩, rfl⟩
    · rw [if_neg hg]
      exact ⟨⟨hec, hidle, heof, hrs, hWF, hne, hor⟩, rfl⟩

/-- Helper: after a completed move pops the front buffer, restarting the mover
preserves the always-accepting-run invariant. -/
theorem AA_afterPop (cfg : Cfg) (s : St) (i2 : InFileMode)
    (hec : s.errcode = 0) (hidle : s.lower.state = ChState.IDLE)
    (heof : s.lower.eofFed = false) (hrs : s.readerState = ReaderState.RS_INACTIVE)
    (hWF : queueWF s) (hne : ∀ x ∈ queueOf s, x ≠ [])
    (hfile : s.mode = Mode.IN_FILE_MODE) (h0 : s.nbuffers ≠ 0)
    (hw2 : i2.written = -(s.bytesBuffered : Int) + (s.firstBuffer.length : Int))
    (hreq2 : i2.writerRequest = none) (hrr2 : i2.readRequest = none) :
    AAInv cfg (moveNextBufferToFile (popBuffer { s with inFileMode := some i2 }))
      ∧ (moveNextBufferToFile (popBuffer { s with inFileMode := some i2 })).lower.fed
          = s.lower.fed := by
  obtain ⟨hqWF, hqtail, hbytes⟩ :=
    queueWF_pop { s with inFileMode := some i2 } hWF h0
  have hp2 : (popBuffer { s with inFileMode := some i2 }).inFileMode = some i2 :=
    popBuffer_inFileMode { s with inFileMode := some i2 }
  have hle : s.firstBuffer.length ≤ s.bytesBuffered := by
    rw [hWF.2.2, queueOf, if_neg h0, sumB_cons]
    omega
  have hwr : i2.written =
      -(((popBuffer { s with inFileMode := some i2 }).bytesBuffered : Nat) : Int) := by
    rw [hbytes, hw2]
    dsimp only
    omega
  have hnetl : ∀ x ∈ queueOf (popBuffer { s with inFileMode := some i2 }), x ≠ [] := by
    intro x hx
    rw [hqtail] at hx
    exact hne x (List.mem_of_mem_tail hx)
  by_cases h20 : (popBuffer { s with inFileMode := some i2 }).nbuffers = 0
  · rw [moveNext_eq_inactive (popBuffer { s with inFileMode := some i2 }) i2 hp2 h20]
    refine ⟨⟨(popBuffer_errcode _).trans hec,
      (congrArg LowerChannel.state (popBuffer_lower _)).trans hidle,
      (congrArg LowerChannel.eofFed (popBuffer_lower _)).trans heof,
      (popBuffer_readerState _).trans hrs, hqWF, hnetl,
      Or.inr ⟨(popBuffer_mode _).trans hfile, _, rfl, hwr, hrr2, ?_⟩⟩,
      congrArg LowerChannel.fed (popBuffer_lower _)⟩
    exact ⟨hreq2, fun _ => h20⟩
  · have hf2 : (popBuffer { s with inFileMode := some i2 }).firstBuffer ≠ [] := by
      have hmem := firstBuffer_mem_queueOf (popBuffer { s with inFileMode := some i2 }) h20
      rw [hqtail] at hmem
      exact hne _ (List.mem_of_mem_tail hmem)
    rw [moveNext_eq_moving (popBuffer { s with inFileMode := some i2 }) i2 hp2 h20 hf2]
    refine ⟨⟨(popBuffer_errcode _).trans hec,
      (congrArg LowerChannel.state (popBuffer_lower _)).trans hidle,
      (congrArg LowerChannel.eofFed (popBuffer_lower _)).trans heof,
      (popBuffer_readerState _).trans hrs, hqWF, hnetl,
      Or.inr ⟨(popBuffer_mode _).trans hfile, _, rfl, hwr, hrr2, ?_⟩⟩,
      congrArg LowerChannel.fed (popBuffer_lower _)⟩
    exact ⟨Nat.pos_of_ne_zero h20, hf2, 0, _, rfl, List.length_pos.mpr hf2⟩

/-- Helper: a successful (possibly short) write completion preserves the
always-accepting-run invariant and feeds nothing downstream. -/
theorem AA_writeComplete (cfg : Cfg) (s : St) (result err : Int)
    (h : AAInv cfg s) (hres : 0 ≤ result) :
    AAInv cfg (applyEv cfg s (Ev.writeComplete result err)) ∧
      (applyEv cfg s (Ev.writeComplete result err)).lower.fed = s.lower.fed := by
  obtain ⟨hec, hidle, heof, hrs, hWF, hne, hor⟩ := h
  unfold applyEv
  cases hi : s.inFileMode with
  | none => exact ⟨⟨hec, hidle, heof, hrs, hWF, hne, hor⟩, rfl⟩
  | some i =>
    dsimp only
    cases hreq : i.writerRequest with
    | none => exact ⟨⟨hec, hidle, heof, hrs, hWF, hne, hor⟩, rfl⟩
    | some wr =>
      cases wr with
      | creating => exact ⟨⟨hec, hidle, heof, hrs, hWF, hne, hor⟩, rfl⟩
      | moving b w off =>
        dsimp only
        by_cases hg : s.mode = Mode.IN_FILE_MODE
            ∧ i.writerState = WriterState.WS_MOVING
            ∧ ((0 ≤ result ∧ w + result.toNat ≤ b.length) ∨ (result < 0 ∧ err ≠ 0))
        · rw [if_pos hg]
          obtain ⟨hfile', hws, hcnt⟩ := hg
          have hcnt' : w + result.toNat ≤ b.length := by
            rcases hcnt with ⟨_, hle⟩ | ⟨hneg, _⟩
            · exact hle
            · omega
          rcases hor with ⟨hmem, hnb0, hifm⟩ | ⟨hfile, i', hifm, hw, hrr, hwWF⟩
          · rw [hi] at hifm
            exact absurd hifm (by simp)
          · rw [hi] at hifm
            injection hifm with hii
            subst hii
            unfold writerWF at hwWF
            rw [hws] at hwWF
            obtain ⟨hpos, hfb, w', off', hreq', hwlt⟩ := hwWF
            rw [hreq] at hreq'
            injection hreq' with h2
            injection h2 with hb1 hw1 hoff1
            subst hb1
            subst hw1
            subst hoff1
            unfold bufferWrittenToFile
            rw [hi]
            dsimp only
            rw [if_pos hres]
            try dsimp only
            by_cases hcomp : w + result.toNat = s.firstBuffer.length
            · rw [if_pos hcomp]
              exact AA_afterPop cfg s _ hec hidle heof hrs hWF hne hfile
                (Nat.pos_iff_ne_zero.mp hpos)
                (by show i.written + (s.firstBuffer.length : Int) =
                      -(s.bytesBuffered : Int) + (s.firstBuffer.length : Int)
                    rw [hw])
                rfl hrr
            · rw [if_neg hcomp]
              refine ⟨⟨hec, hidle, heof, hrs, hWF, hne,
                Or.inr ⟨hfile, _, rfl, hw, hrr, ?_⟩⟩, rfl⟩
              unfold writerWF
              dsimp only
              rw [hws]
              exact ⟨hpos, hfb, w + result.toNat, _, rfl, by omega⟩
        · rw [if_neg hg]
          exact ⟨⟨hec, hidle, heof, hrs, hWF, hne, hor⟩, rfl⟩

/-- Helper: pushing increments the buffer count. -/
theorem pushBuffer_nbuffers (s : St) (b : Buf) :
    (pushBuffer s b).nbuffers = s.nbuffers + 1 := by
  unfold pushBuffer
  split_ifs <;> rfl

/-- Helper: pushing onto an empty queue fills the front slot. -/
theorem pushBuffer_first_zero (s : St) (b : Buf) (h0 : s.nbuffers = 0) :
    (pushBuffer s b).firstBuffer = b := by
  unfold pushBuffer
  rw [if_pos h0]

/-- Helper: pushing onto an empty queue keeps the (null) tail. -/
theorem pushBuffer_more_zero (s : St) (b : Buf) (h0 : s.nbuffers = 0) :
    (pushBuffer s b).moreBuffers = s.moreBuffers := by
  unfold pushBuffer
  rw [if_pos h0]

/-- Helper: pushing onto a nonempty queue keeps the front buffer. -/
theorem pushBuffer_first_pos (s : St) (b : Buf) (h0 : s.nbuffers ≠ 0) :
    (pushBuffer s b).firstBuffer = s.firstBuffer := by
  unfold pushBuffer
  rw [if_neg h0]

/-- Helper: switching to the in-file mode keeps the reader state. -/
theorem switchToInFileMode_readerState (s : St) :
    (switchToInFileMode s).readerState = s.readerState := rfl

/-- Helper: switching to the in-file mode keeps the lower channel. -/
theorem switchToInFileMode_lower (s : St) :
    (switchToInFileMode s).lower = s.lower := rfl

/-- Helper: feeding a nonempty buffer to a channel in an always-accepting run
preserves the invariant and delivers exactly that buffer downstream. -/
theorem AA_feed (cfg : Cfg) (s : St) (b : Buf) (hb : b ≠ [])
    (h : AAInv cfg s) :
    AAInv cfg (feedWithoutRefGuard cfg b [] s) ∧
      (feedWithoutRefGuard cfg b [] s).lower.fed = s.lower.fed ++ [b] := by
  have hend := AAInv_not_ended cfg s h
  obtain ⟨hec, hidle, heof, hrs, hWF, hne, hor⟩ := h
  have hqp := queueOf_push s b hWF
  have hWFp := queueWF_push s b hWF
  have hnep : ∀ x ∈ queueOf (pushBuffer s b), x ≠ [] := by
    intro x hx
    rw [hqp] at hx
    rcases List.mem_append.mp hx with hx1 | hx2
    · exact hne x hx1
    · have hxb := List.mem_singleton.mp hx2
      subst hxb
      exact hb
  have hacc : (pushBuffer s b).lower.acceptingInput = true := by
    rw [pushBuffer_lower]
    unfold LowerChannel.acceptingInput
    rw [hidle]
  have hidle' : (pushBuffer s b).lower.state = ChState.IDLE := by
    rw [pushBuffer_lower]
    exact hidle
  unfold feedWithoutRefGuard
  rw [hend]
  simp only [Bool.false_eq_true, if_false]
  rcases hor with ⟨hmem, hnb0, hifm⟩ | ⟨hfile, i, hifm, hw, hrr, hwWF⟩
  · -- in-memory mode: the queue was empty
    have hbytes0 : s.bytesBuffered = 0 := by
      have h3 := hWF.2.2
      rw [queueOf, if_pos hnb0] at h3
      simpa [sumB] using h3
    have hfm := hWF.1 hnb0
    have hpm : (pushBuffer s b).mode = Mode.IN_MEMORY_MODE :=
      (pushBuffer_mode s b).trans hmem
    by_cases hth : passedThreshold cfg (pushBuffer s b) = true
    · -- the push crosses the threshold: switch to the in-file mode, then drain
      have hC1 : (pushBuffer s b).mode = Mode.IN_MEMORY_MODE
          ∧ passedThreshold cfg (pushBuffer s b) = true := ⟨hpm, hth⟩
      rw [if_pos hC1]
      rw [if_pos ((switchToInFileMode_readerState _).trans
        ((pushBuffer_readerState s b).trans hrs))]
      have hacc2 : (switchToInFileMode (pushBuffer s b)).lower.acceptingInput = true := by
        rw [switchToInFileMode_lower]
        exact hacc
      rw [if_pos hacc2]
      have hdrain := drain_file cfg [b]
        ((switchToInFileMode (pushBuffer s b)).nbuffers + 2) []
        (switchToInFileMode (pushBuffer s b))
        ⟨-1, none, WriterState.WS_CREATING_FILE, some WriterReq.creating, 0, 0, []⟩
        (switchToInFileMode_mode _) rfl
        (by rw [switchToInFileMode_lower]; exact hidle')
        hWFp hnep
        (by show queueOf (pushBuffer s b) = [] ++ [b]
            rw [hqp, queueOf, if_pos hnb0])
        (by simp [sumB])
        (by simp only [List.length_singleton]; omega)
      rw [hdrain]
      constructor
      · apply autoTruncAfter_AA
        refine ⟨(pushBuffer_errcode s b).trans hec,
          (congrArg LowerChannel.state (pushBuffer_lower s b)).trans hidle,
          (congrArg LowerChannel.eofFed (pushBuffer_lower s b)).trans heof,
          rfl, hWFp, hnep,
          Or.inr ⟨switchToInFileMode_mode (pushBuffer s b), _, rfl, ?_, rfl, rfl⟩⟩
        show (0 : Int) - ((sumB [b] : Nat) : Int) =
          -(((pushBuffer s b).bytesBuffered : Nat) : Int)
        rw [pushBuffer_bytes, hbytes0]
        simp [sumB]
      · rw [autoTruncAfter_lower]
        show (pushBuffer s b).lower.fed ++ [b] = s.lower.fed ++ [b]
        rw [pushBuffer_lower]
    · -- below the threshold: stay in memory and drain the single buffer
      have hC1n : ¬((pushBuffer s b).mode = Mode.IN_MEMORY_MODE
          ∧ passedThreshold cfg (pushBuffer s b) = true) := fun hc => hth hc.2
      rw [if_neg hC1n]
      have hC2n : ¬((pushBuffer s b).mode = Mode.IN_FILE_MODE
          ∧ (∃ i', (pushBuffer s b).inFileMode = some i'
              ∧ i'.writerState = WriterState.WS_INACTIVE)
          ∧ cfg.autoStartMover = true) :=
        fun hc => absurd (hpm.symm.trans hc.1) (by decide)
      rw [if_neg hC2n]
      rw [if_pos ((pushBuffer_readerState s b).trans hrs)]
      rw [if_pos hacc]
      have hdrain := drain_mem cfg (pushBuffer s b) b ((pushBuffer s b).nbuffers + 2)
        hpm hidle'
        (by rw [pushBuffer_nbuffers, hnb0])
        (pushBuffer_first_zero s b hnb0)
        (by rw [pushBuffer_more_zero s b hnb0]; exact hfm.2)
        hb
        (by rw [pushBuffer_bytes, hbytes0, Nat.zero_add])
        (by omega)
      rw [hdrain]
      refine ⟨⟨(pushBuffer_errcode s b).trans hec, rfl,
        (congrArg LowerChannel.eofFed (pushBuffer_lower s b)).trans heof,
        rfl,
        ⟨fun _ => ⟨rfl, (pushBuffer_more_zero s b hnb0).trans hfm.2⟩,
          fun hx => absurd rfl hx, rfl⟩,
        ?_, Or.inl ⟨hpm, rfl, (pushBuffer_inFileMode s b).trans hifm⟩⟩, ?_⟩
      · intro x hx
        rw [queueOf] at hx
        simp at hx
      · show (pushBuffer s b).lower.fed ++ [b] = s.lower.fed ++ [b]
        rw [pushBuffer_lower]
  · -- in-file mode
    have hpm : (pushBuffer s b).mode = Mode.IN_FILE_MODE :=
      (pushBuffer_mode s b).trans hfile
    have hifmp : (pushBuffer s b).inFileMode = some i :=
      (pushBuffer_inFileMode s b).trans hifm
    have hwritten : i.written = -(sumB (queueOf s) : Int) := by
      rw [← hWF.2.2]
      exact hw
    have hC1n : ¬((pushBuffer s b).mode = Mode.IN_MEMORY_MODE
        ∧ passedThreshold cfg (pushBuffer s b) = true) :=
      fun hc => absurd (hpm.symm.trans hc.1) (by decide)
    rw [if_neg hC1n]
    by_cases hmv : i.writerState = WriterState.WS_INACTIVE ∧ cfg.autoStartMover = true
    · -- the mover auto-starts on the freshly pushed buffer
      have hC2 : (pushBuffer s b).mode = Mode.IN_FILE_MODE
          ∧ (∃ i', (pushBuffer s b).inFileMode = some i'
              ∧ i'.writerState = WriterState.WS_INACTIVE)
          ∧ cfg.autoStartMover = true := ⟨hpm, ⟨i, hifmp, hmv.1⟩, hmv.2⟩
      rw [if_pos hC2]
      unfold writerWF at hwWF
      rw [hmv.1] at hwWF
      obtain ⟨hreqn, hnbf⟩ := hwWF
      have hnb0 : s.nbuffers = 0 := hnbf hmv.2
      have hbytes0 : s.bytesBuffered = 0 := by
        have h3 := hWF.2.2
        rw [queueOf, if_pos hnb0] at h3
        simpa [sumB] using h3
      have hq2' : (pushBuffer s b).firstBuffer = b := pushBuffer_first_zero s b hnb0
      rw [moveNext_eq_moving (pushBuffer s b) i hifmp
        (by rw [pushBuffer_nbuffers]; exact Nat.succ_ne_zero _)
        (by rw [hq2']; exact hb)]
      rw [if_pos ((pushBuffer_readerState s b).trans hrs)]
      rw [if_pos hacc]
      have hdrain := drain_file cfg [b]
        (({ pushBuffer s b with inFileMode := some { i with
            writerState := WriterState.WS_MOVING,
            writerRequest := some (WriterReq.moving (pushBuffer s b).firstBuffer 0
              (i.readOffset + i.written)) } } : St).nbuffers + 2) []
        { pushBuffer s b with inFileMode := some { i with
            writerState := WriterState.WS_MOVING,
            writerRequest := some (WriterReq.moving (pushBuffer s b).firstBuffer 0
              (i.readOffset + i.written)) } }
        { i with
            writerState := WriterState.WS_MOVING,
            writerRequest := some (WriterReq.moving (pushBuffer s b).firstBuffer 0
              (i.readOffset + i.written)) }
        hpm rfl hidle' hWFp hnep
        (by show queueOf (pushBuffer s b) = [] ++ [b]
            rw [hqp, queueOf, if_pos hnb0])
        (by show i.written = -((sumB [] : Nat) : Int)
            rw [hwritten, queueOf, if_pos hnb0])
        (by simp only [List.length_singleton]; omega)
      rw [hdrain]
      constructor
      · apply autoTruncAfter_AA
        refine ⟨(pushBuffer_errcode s b).trans hec,
          (congrArg LowerChannel.state (pushBuffer_lower s b)).trans hidle,
          (congrArg LowerChannel.eofFed (pushBuffer_lower s b)).trans heof,
          rfl, hWFp, hnep,
          Or.inr ⟨hpm, _, rfl, ?_, hrr, ?_⟩⟩
        · show i.written - ((sumB [b] : Nat) : Int) =
            -(((pushBuffer s b).bytesBuffered : Nat) : Int)
          rw [pushBuffer_bytes, hwritten, queueOf, if_pos hnb0, hbytes0]
          simp [sumB]
        · refine ⟨?_, ?_, 0, i.readOffset + i.written, rfl, ?_⟩
          · show 0 < (pushBuffer s b).nbuffers
            rw [pushBuffer_nbuffers]
            exact Nat.succ_pos _
          · show (pushBuffer s b).firstBuffer ≠ []
            rw [hq2']
            exact hb
          · show 0 < (pushBuffer s b).firstBuffer.length
            rw [hq2']
            exact List.length_pos.mpr hb
      · rw [autoTruncAfter_lower]
        show (pushBuffer s b).lower.fed ++ [b] = s.lower.fed ++ [b]
        rw [pushBuffer_lower]
    · -- no mover start: drain the new tail buffer from memory
      rw [if_neg (show ¬((pushBuffer s b).mode = Mode.IN_FILE_MODE
          ∧ (∃ i', (pushBuffer s b).inFileMode = some i'
              ∧ i'.writerState = WriterState.WS_INACTIVE)
          ∧ cfg.autoStartMover = true) from by
        rintro ⟨-, ⟨i', hi', hws'⟩, hauto⟩
        rw [hifmp] at hi'
        injection hi' with hii
        subst hii
        exact hmv ⟨hws', hauto⟩)]
      rw [if_pos ((pushBuffer_readerState s b).trans hrs)]
      rw [if_pos hacc]
      have hdrain := drain_file cfg [b] ((pushBuffer s b).nbuffers + 2) (queueOf s)
        (pushBuffer s b) i hpm hifmp hidle' hWFp hnep
        (by rw [hqp]) hwritten (by simp only [List.length_singleton]; omega)
      rw [hdrain]
      constructor
      · apply autoTruncAfter_AA
        refine ⟨(pushBuffer_errcode s b).trans hec,
          (congrArg LowerChannel.state (pushBuffer_lower s b)).trans hidle,
          (congrArg LowerChannel.eofFed (pushBuffer_lower s b)).trans heof,
          rfl, hWFp, hnep,
          Or.inr ⟨hpm, _, rfl, ?_, hrr, ?_⟩⟩
        · show i.written - ((sumB [b] : Nat) : Int) =
            -(((pushBuffer s b).bytesBuffered : Nat) : Int)
          rw [pushBuffer_bytes, hwritten, hWF.2.2]
          simp only [sumB, List.map_cons, List.map_nil, List.sum_cons, List.sum_nil]
          push_cast
          ring
        · unfold writerWF
          dsimp only
          unfold writerWF at hwWF
          cases hws2 : i.writerState with
          | WS_INACTIVE =>
            rw [hws2] at hwWF
            obtain ⟨hreqn, hnbf⟩ := hwWF
            exact ⟨hreqn, fun ha => absurd ha (fun ha2 => hmv ⟨hws2, ha2⟩)⟩
          | WS_CREATING_FILE =>
            rw [hws2] at hwWF
            exact hwWF
          | WS_MOVING =>
            rw [hws2] at hwWF
            obtain ⟨hpos, hfb, w', off', hreq', hwlt⟩ := hwWF
            have hnbne : s.nbuffers ≠ 0 := Nat.pos_iff_ne_zero.mp hpos
            have hfq : (pushBuffer s b).firstBuffer = s.firstBuffer :=
              pushBuffer_first_pos s b hnbne
            refine ⟨?_, ?_, w', off', ?_, ?_⟩
            · show 0 < (pushBuffer s b).nbuffers
              rw [pushBuffer_nbuffers]
              omega
            · show (pushBuffer s b).firstBuffer ≠ []
              rw [hfq]
              exact hfb
            · show i.writerRequest =
                some (WriterReq.moving (pushBuffer s b).firstBuffer w' off')
              rw [hfq]
              exact hreq'
            · show w' < (pushBuffer s b).firstBuffer.length
              rw [hfq]
              exact hwlt
          | WS_TERMINATED =>
            rw [hws2] at hwWF
            exact hwWF.elim
      · rw [autoTruncAfter_lower]
        show (pushBuffer s b).lower.fed ++ [b] = s.lower.fed ++ [b]
        rw [pushBuffer_lower]

/-- Helper: starting the mover on an empty (EOS) front buffer terminates the
writer. -/
theorem moveNext_eq_terminated (s : St) (i : InFileMode) (hi : s.inFileMode = some i)
    (h0 : s.nbuffers ≠ 0) (hf : s.firstBuffer = []) :
    moveNextBufferToFile s =
      { s with inFileMode := some { i with writerState := WriterState.WS_TERMINATED } } := by
  unfold moveNextBufferToFile
  rw [hi]
  dsimp only
  rw [if_neg h0, if_pos hf]

/-- Helper: the reader meeting the EOS sentinel at the queue front in the
in-memory mode feeds EOS and terminates. -/
theorem eos_step_mem (cfg : Cfg) (fuel : Nat) (s : St)
    (hm : s.mode = Mode.IN_MEMORY_MODE) (h0 : s.nbuffers ≠ 0)
    (hf : s.firstBuffer = []) (hfuel : 0 < fuel) :
    readNextFuel cfg fuel [] s =
      terminateReaderBecauseOfEOF
        { s with readerState := ReaderState.RS_FEEDING_EOF,
                 lower := chanFeed s.lower [] (headResp []) } := by
  obtain ⟨f, rfl⟩ : ∃ f, fuel = f + 1 := ⟨fuel - 1, by omega⟩
  rw [readNextFuel, hm]
  dsimp only
  rw [if_neg h0, if_pos hf]

/-- Helper: the reader meeting the EOS sentinel right after the served prefix
in the in-file mode feeds EOS and terminates. -/
theorem eos_step (cfg : Cfg) (fuel : Nat) (s : St) (i : InFileMode) (P : List Buf)
    (hm : s.mode = Mode.IN_FILE_MODE) (hi : s.inFileMode = some i)
    (hWF : queueWF s) (hne : ∀ x ∈ P, x ≠ [])
    (hq : queueOf s = P ++ [[]])
    (hw : i.written = -(sumB P : Int)) (hfuel : 0 < fuel) :
    readNextFuel cfg fuel [] s =
      terminateReaderBecauseOfEOF
        { s with readerState := ReaderState.RS_FEEDING_EOF,
                 lower := chanFeed s.lower [] (headResp []) } := by
  obtain ⟨f, rfl⟩ : ∃ f, fuel = f + 1 := ⟨fuel - 1, by omega⟩
  rw [readNextFuel, hm]
  dsimp only
  rw [hi]
  dsimp only
  have hnpos : ¬(0 < i.written) := by
    rw [hw]
    have h0 : (0 : Int) ≤ (sumB P : Int) := Int.natCast_nonneg _
    omega
  rw [if_neg hnpos]
  rw [findBuffer_found s i.written P [] [] hq hWF hne hw]
  dsimp only
  rw [if_pos rfl]

/-- Helper: feeding the EOS sentinel to a channel in an always-accepting run
feeds no data and marks end-of-stream downstream. -/
theorem AA_eos (cfg : Cfg) (s : St) (h : AAInv cfg s) :
    (feedWithoutRefGuard cfg [] [] s).lower.fed = s.lower.fed ∧
      (feedWithoutRefGuard cfg [] [] s).lower.eofFed = true := by
  have hend := AAInv_not_ended cfg s h
  obtain ⟨hec, hidle, heof, hrs, hWF, hne, hor⟩ := h
  have hqp := queueOf_push s [] hWF
  have hWFp := queueWF_push s [] hWF
  have hacc : (pushBuffer s []).lower.acceptingInput = true := by
    rw [pushBuffer_lower]
    unfold LowerChannel.acceptingInput
    rw [hidle]
  unfold feedWithoutRefGuard
  rw [hend]
  simp only [Bool.false_eq_true, if_false]
  rcases hor with ⟨hmem, hnb0, hifm⟩ | ⟨hfile, i, hifm, hw, hrr, hwWF⟩
  · have hpm : (pushBuffer s []).mode = Mode.IN_MEMORY_MODE :=
      (pushBuffer_mode s []).trans hmem
    by_cases hth : passedThreshold cfg (pushBuffer s []) = true
    · have hC1 : (pushBuffer s []).mode = Mode.IN_MEMORY_MODE
          ∧ passedThreshold cfg (pushBuffer s []) = true := ⟨hpm, hth⟩
      rw [if_pos hC1]
      rw [if_pos ((switchToInFileMode_readerState _).trans
        ((pushBuffer_readerState s []).trans hrs))]
      have hacc2 : (switchToInFileMode (pushBuffer s [])).lower.acceptingInput = true := by
        rw [switchToInFileMode_lower]
        exact hacc
      rw [if_pos hacc2]
      rw [eos_step cfg ((switchToInFileMode (pushBuffer s [])).nbuffers + 2)
        (switchToInFileMode (pushBuffer s []))
        ⟨-1, none, WriterState.WS_CREATING_FILE, some WriterReq.creating, 0, 0, []⟩
        [] (switchToInFileMode_mode _) rfl hWFp
        (fun x hx => absurd hx (List.not_mem_nil x))
        (by show queueOf (pushBuffer s []) = [] ++ [[]]
            rw [hqp, queueOf, if_pos hnb0])
        (by simp [sumB])
        (by omega)]
      constructor
      · show (switchToInFileMode (pushBuffer s [])).lower.fed = s.lower.fed
        exact congrArg LowerChannel.fed
          ((switchToInFileMode_lower _).trans (pushBuffer_lower s []))
      · rfl
    · have hC1n : ¬((pushBuffer s []).mode = Mode.IN_MEMORY_MODE
          ∧ passedThreshold cfg (pushBuffer s []) = true) := fun hc => hth hc.2
      rw [if_neg hC1n]
      have hC2n : ¬((pushBuffer s []).mode = Mode.IN_FILE_MODE
          ∧ (∃ i', (pushBuffer s []).inFileMode = some i'
              ∧ i'.writerState = WriterState.WS_INACTIVE)
          ∧ cfg.autoStartMover = true) :=
        fun hc => absurd (hpm.symm.trans hc.1) (by decide)
      rw [if_neg hC2n]
      rw [if_pos ((pushBuffer_readerState s []).trans hrs)]
      rw [if_pos hacc]
      rw [eos_step_mem cfg ((pushBuffer s []).nbuffers + 2) (pushBuffer s []) hpm
        (by rw [pushBuffer_nbuffers]; exact Nat.succ_ne_zero _)
        (pushBuffer_first_zero s [] hnb0) (by omega)]
      constructor
      · show (pushBuffer s []).lower.fed = s.lower.fed
        exact congrArg LowerChannel.fed (pushBuffer_lower s [])
      · rfl
  · have hpm : (pushBuffer s []).mode = Mode.IN_FILE_MODE :=
      (pushBuffer_mode s []).trans hfile
    have hifmp : (pushBuffer s []).inFileMode = some i :=
      (pushBuffer_inFileMode s []).trans hifm
    have hwritten : i.written = -(sumB (queueOf s) : Int) := by
      rw [← hWF.2.2]
      exact hw
    have hC1n : ¬((pushBuffer s []).mode = Mode.IN_MEMORY_MODE
        ∧ passedThreshold cfg (pushBuffer s []) = true) :=
      fun hc => absurd (hpm.symm.trans hc.1) (by decide)
    rw [if_neg hC1n]
    by_cases hmv : i.writerState = WriterState.WS_INACTIVE ∧ cfg.autoStartMover = true
    · have hC2 : (pushBuffer s []).mode = Mode.IN_FILE_MODE
          ∧ (∃ i', (pushBuffer s []).inFileMode = some i'
              ∧ i'.writerState = WriterState.WS_INACTIVE)
          ∧ cfg.autoStartMover = true := ⟨hpm, ⟨i, hifmp, hmv.1⟩, hmv.2⟩
      rw [if_pos hC2]
      unfold writerWF at hwWF
      rw [hmv.1] at hwWF
      obtain ⟨hreqn, hnbf⟩ := hwWF
      have hnb0 : s.nbuffers = 0 := hnbf hmv.2
      rw [moveNext_eq_terminated (pushBuffer s []) i hifmp
        (by rw [pushBuffer_nbuffers]; exact Nat.succ_ne_zero _)
        (pushBuffer_first_zero s [] hnb0)]
      rw [if_pos ((pushBuffer_readerState s []).trans hrs)]
      rw [if_pos hacc]
      rw [eos_step cfg
        (({ pushBuffer s [] with inFileMode := some { i with
            writerState := WriterState.WS_TERMINATED } } : St).nbuffers + 2)
        { pushBuffer s [] with inFileMode := some { i with
            writerState := WriterState.WS_TERMINATED } }
        { i with writerState := WriterState.WS_TERMINATED }
        [] hpm rfl hWFp
        (fun x hx => absurd hx (List.not_mem_nil x))
        (by show queueOf (pushBuffer s []) = [] ++ [[]]
            rw [hqp, queueOf, if_pos hnb0])
        (by show i.written = -((sumB [] : Nat) : Int)
            rw [hwritten, queueOf, if_pos hnb0])
        (by omega)]
      constructor
      · show (pushBuffer s []).lower.fed = s.lower.fed
        exact congrArg LowerChannel.fed (pushBuffer_lower s [])
      · rfl
    · rw [if_neg (show ¬((pushBuffer s []).mode = Mode.IN_FILE_MODE
          ∧ (∃ i', (pushBuffer s []).inFileMode = some i'
              ∧ i'.writerState = WriterState.WS_INACTIVE)
          ∧ cfg.autoStartMover = true) from by
        rintro ⟨-, ⟨i', hi', hws'⟩, hauto⟩
        rw [hifmp] at hi'
        injection hi' with hii
        subst hii
        exact hmv ⟨hws', hauto⟩)]
      rw [if_pos ((pushBuffer_readerState s []).trans hrs)]
      rw [if_pos hacc]
      rw [eos_step cfg ((pushBuffer s []).nbuffers + 2) (pushBuffer s []) i
        (queueOf s) hpm hifmp hWFp hne (by rw [hqp]) hwritten (by omega)]
      constructor
      · show (pushBuffer s []).lower.fed = s.lower.fed
        exact congrArg LowerChannel.fed (pushBuffer_lower s [])
      · rfl

/-- Helper: one always-accepting, non-EOS event preserves the invariant and
appends exactly its data feeds downstream. -/
theorem AA_step (cfg : Cfg) (s : St) (e : Ev) (h : AAInv cfg s)
    (hAA : isAAEv e = true) (hEos : isEosFeed e = false) :
    AAInv cfg (applyEv cfg s e) ∧
      (applyEv cfg s e).lower.fed = s.lower.fed ++ dataFeedsOf [e] := by
  cases e with
  | feed b resps =>
    have hresps : resps = [] := by simpa [isAAEv] using hAA
    subst hresps
    have hb : b ≠ [] := by
      intro hb0
      subst hb0
      simp [isEosFeed] at hEos
    have hf := AA_feed cfg s b hb h
    refine ⟨hf.1, ?_⟩
    show (feedWithoutRefGuard cfg b [] s).lower.fed = s.lower.fed ++ dataFeedsOf [Ev.feed b []]
    rw [hf.2]
    simp [dataFeedsOf, hb]
  | feedErr er => simp [isAAEv] at hAA
  | reinit => simp [isAAEv] at hAA
  | deinit => simp [isAAEv] at hAA
  | chConsumed ns resps => simp [isAAEv] at hAA
  | fileCreated result err =>
    have hres : 0 ≤ result ∨ (result < 0 ∧ err = EEXIST) := by
      simpa [isAAEv] using hAA
    have hf := AA_fileCreated cfg s result err h hres
    refine ⟨hf.1, ?_⟩
    rw [hf.2]
    simp [dataFeedsOf]
  | writeComplete result err =>
    have hres : 0 ≤ result := by simpa [isAAEv] using hAA
    have hf := AA_writeComplete cfg s result err h hres
    refine ⟨hf.1, ?_⟩
    rw [hf.2]
    simp [dataFeedsOf]
  | readComplete result err resps => simp [isAAEv] at hAA

/-- Helper: a whole always-accepting, EOS-free trace preserves the invariant
and delivers exactly its data feeds, in order. -/
theorem AA_run (cfg : Cfg) :
    ∀ (evs : List Ev) (s : St), AAInv cfg s →
      (∀ e ∈ evs, isAAEv e = true ∧ isEosFeed e = false) →
      AAInv cfg (run cfg s evs) ∧
        (run cfg s evs).lower.fed = s.lower.fed ++ dataFeedsOf evs := by
  intro evs
  induction evs with
  | nil =>
    intro s h _
    refine ⟨h, ?_⟩
    show s.lower.fed = s.lower.fed ++ dataFeedsOf []
    simp [dataFeedsOf]
  | cons e evs ih =>
    intro s h hall
    have he := hall e (List.mem_cons_self _ _)
    have hstep := AA_step cfg s e h he.1 he.2
    have hrest := ih (applyEv cfg s e) hstep.1
      (fun x hx => hall x (List.mem_cons_of_mem _ hx))
    rw [run_cons]
    refine ⟨hrest.1, ?_⟩
    rw [hrest.2, hstep.2, show (e :: evs) = [e] ++ evs from rfl,
      dataFeedsOf_append, List.append_assoc]

/-- C1: for any trace of `feed`s (with an always-accepting consumer) and
successful asynchronous completions, with no EOS sentinel except possibly as
the last feed, the downstream channel is fed exactly the fed buffers in
order — each delivered once, none skipped, across the in-memory/in-file mode
switch — followed by an EOS feed iff the final feed was the EOS sentinel. -/
theorem fbc_order_preservation (cfg : Cfg) (evs : List Ev)
    (hAA : evs.all isAAEv = true)
    (hmid : evs.dropLast.all (fun e => !isEosFeed e) = true) :
    (run cfg initSt evs).lower.fed = dataFeedsOf evs ∧
      (run cfg initSt evs).lower.eofFed = evs.any isEosFeed := by
  by_cases hany : evs.any isEosFeed = true
  · have hne : evs ≠ [] := by
      intro h0
      subst h0
      simp at hany
    obtain ⟨l, e, hsplit⟩ : ∃ l e, evs = l ++ [e] :=
      ⟨evs.dropLast, evs.getLast hne, (List.dropLast_append_getLast hne).symm⟩
    subst hsplit
    rw [List.dropLast_concat] at hmid
    have hallAA : ∀ x ∈ l, isAAEv x = true := fun x hx =>
      List.all_eq_true.mp hAA x (List.mem_append.mpr (Or.inl hx))
    have hAAe : isAAEv e = true :=
      List.all_eq_true.mp hAA e (List.mem_append.mpr (Or.inr (List.mem_singleton_self e)))
    by_cases heos : isEosFeed e = true
    · obtain ⟨resps, he⟩ : ∃ resps, e = Ev.feed [] resps := by
        cases e with
        | feed b r =>
          cases b with
          | nil => exact ⟨r, rfl⟩
          | cons x xs => simp [isEosFeed] at heos
        | feedErr er => simp [isEosFeed] at heos
        | reinit => simp [isEosFeed] at heos
        | deinit => simp [isEosFeed] at heos
        | chConsumed a b => simp [isEosFeed] at heos
        | fileCreated a b => simp [isEosFeed] at heos
        | writeComplete a b => simp [isEosFeed] at heos
        | readComplete a b c => simp [isEosFeed] at heos
      subst he
      have hresps : resps = [] := by simpa [isAAEv] using hAAe
      subst hresps
      have hrun := AA_run cfg l initSt (AAInv_initSt cfg)
        (fun x hx => ⟨hallAA x hx,
          by have hx2 := List.all_eq_true.mp hmid x hx
             simpa using hx2⟩)
      have heosstep := AA_eos cfg (run cfg initSt l) hrun.1
      rw [run_append]
      constructor
      · show (feedWithoutRefGuard cfg [] [] (run cfg initSt l)).lower.fed =
          dataFeedsOf (l ++ [Ev.feed [] []])
        rw [heosstep.1, hrun.2, dataFeedsOf_append]
        simp [dataFeedsOf, initSt]
      · show (feedWithoutRefGuard cfg [] [] (run cfg initSt l)).lower.eofFed =
          (l ++ [Ev.feed [] []]).any isEosFeed
        rw [heosstep.2]
        simp [isEosFeed]
    · exfalso
      obtain ⟨x, hx, hxe⟩ := List.any_eq_true.mp hany
      rcases List.mem_append.mp hx with hx1 | hx2
      · have hx3 := List.all_eq_true.mp hmid x hx1
        simp at hx3
        rw [hx3] at hxe
        exact Bool.noConfusion hxe
      · have hxeq := List.mem_singleton.mp hx2
        subst hxeq
        rw [hxe] at heos
        exact heos rfl
  · have hnoeos : ∀ x ∈ evs, isEosFeed x = false := by
      intro x hx
      cases hxe : isEosFeed x
      · rfl
      · exact absurd (List.any_eq_true.mpr ⟨x, hx, hxe⟩) hany
    have hrun := AA_run cfg evs initSt (AAInv_initSt cfg)
      (fun x hx => ⟨List.all_eq_true.mp hAA x hx, hnoeos x hx⟩)
    refine ⟨?_, ?_⟩
    · rw [hrun.2]
      show ([] : List Buf) ++ dataFeedsOf evs = dataFeedsOf evs
      simp
    · rw [hrun.1.2.2.1]
      cases hb2 : evs.any isEosFeed
      · rfl
      · exact absurd hb2 hany

/-- Witness for C1: a concrete trace of three data feeds (crossing into the
in-file mode, including a successful file creation and a short write) followed
by the EOS sentinel. -/
theorem fbc_order_preservation_witness :
    evsC1.all isAAEv = true
      ∧ evsC1.dropLast.all (fun e => !isEosFeed e) = true
      ∧ ((run cfgA initSt evsC1).lower.fed = dataFeedsOf evsC1
          ∧ (run cfgA initSt evsC1).lower.eofFed = evsC1.any isEosFeed) :=
  ⟨by decide, by decide, fbc_order_preservation cfgA evsC1 (by decide) (by decide)⟩

end FBC
